import Mathlib

/-!
Shallow embedding of the sifr grading tool's synchronizer core
(src/app/db.py, src/app/helpers.py, src/app/utils.py) and proofs of the
specification claims about it.

Modelling conventions:
* Python floats (REAL columns: points, deductions) are modelled as rationals.
* SQLite tables are lists of rows in insertion order; AUTOINCREMENT primary
  keys are modelled by an explicit next-id counter per table.
* The application never issues PRAGMA foreign_keys = ON, and the Python
  sqlite3 driver leaves foreign-key enforcement off by default, so the
  declared ON DELETE CASCADE / ON DELETE SET NULL actions are inert; the
  embedding therefore mutates exactly the tables named by the code's own
  SQL statements.
* Python string primitives are re-implemented as structural recursions over
  the character list of the string, restricted to ASCII text where Python's
  unicode behaviour would differ (noted at each definition).
* Fallible operations return Except; a Python exception raised before
  conn.commit() rolls the transaction back, so an error result stands for
  "database/file unchanged", which the theorems state explicitly.

The file is organised as: all definitions first, then all lemmas and the
claim theorems.
-/

namespace Sifr

/-! ### Character-level helpers shared by several components -/

/-- Python str.strip on a character list: whitespace removed from both ends
(ASCII whitespace; Python additionally strips some rare unicode spaces). -/
def trimChars (cs : List Char) : List Char :=
  ((cs.dropWhile Char.isWhitespace).reverse.dropWhile Char.isWhitespace).reverse

/-- Python str.rstrip with a single strip character, on a character list. -/
def rstripChar (c : Char) (cs : List Char) : List Char :=
  (cs.reverse.dropWhile (· == c)).reverse

/-- The decimal digit character for a value below ten. -/
def digitChar (d : Nat) : Char :=
  match d with
  | 0 => '0' | 1 => '1' | 2 => '2' | 3 => '3' | 4 => '4'
  | 5 => '5' | 6 => '6' | 7 => '7' | 8 => '8' | _ => '9'

/-- Decimal digit characters of a natural number, most significant first;
the first argument is recursion fuel, sufficient whenever it exceeds the
number of digits. -/
def natDigitsAux : Nat → Nat → List Char
  | 0, _ => []
  | fuel + 1, n =>
      if n < 10 then [digitChar n]
      else natDigitsAux fuel (n / 10) ++ [digitChar (n % 10)]

/-- Decimal representation of a natural number. -/
def natDigits (n : Nat) : List Char :=
  natDigitsAux (n + 1) n

/-- Decimal representation of an integer, with a leading minus sign when
negative. -/
def intToString (i : Int) : String :=
  match i with
  | .ofNat n => String.mk (natDigits n)
  | .negSucc n => String.mk ('-' :: natDigits (n + 1))

/-- Splitting a character list at every occurrence of a separator, keeping
empty segments, as Python str.split with an explicit single-character
separator does. -/
def splitOnChar (sep : Char) : List Char → List (List Char)
  | [] => [[]]
  | c :: cs =>
      let r := splitOnChar sep cs
      if c == sep then [] :: r
      else (c :: r.headD []) :: r.tail

/-! ### Feedback Composer (src/app/helpers.py) -/

/-- One error-code row as handed to the Feedback Composer: fields code,
description, deduction, comment of class ErrorCode in src/app/helpers.py.
A SQL NULL comment is modelled as none; the REAL deduction as a rational. -/
structure ErrorCode where
  code : String
  description : String
  deduction : Rat
  comment : Option String
deriving DecidableEq, Repr

/-- Python truthiness of the optional comment string: None and the empty
string are falsy, every other string is truthy. -/
def commentTruthy : Option String → Bool
  | none => false
  | some s => !s.isEmpty

/-- Embedding of Python float formatting with the general format spec, as used
for the deduction in the f-string of apply_error_codes. Restricted domain:
rationals with a finite decimal expansion of at most six fractional digits and
at most six significant digits (so no exponent notation and no rounding is
triggered), which covers the error-code deductions the UI stores; on that
domain the Python formatting prints the exact decimal expansion with trailing
zeros removed, computed here from the reduced numerator and denominator. -/
def fmtG (q : Rat) : String :=
  let k := (((List.range 7).find? (fun j => (10 : Nat) ^ j % q.den == 0)).getD 6)
  let scaled : Int := q.num * (((10 : Nat) ^ k / q.den : Nat) : Int)
  if k == 0 then intToString scaled
  else
    let ds := natDigits scaled.natAbs
    let ds := if ds.length ≤ k then List.replicate (k + 1 - ds.length) '0' ++ ds else ds
    String.mk ((if scaled < 0 then ['-'] else []) ++
      ds.take (ds.length - k) ++ '.' :: ds.drop (ds.length - k))

/-- The dict comprehension code_map built by apply_error_codes: keyed by the
code field, a later duplicate key overwrites an earlier one. -/
def codeMapLookup (codes : List ErrorCode) (c : String) : Option ErrorCode :=
  codes.foldl (fun acc ec => if ec.code = c then some ec else acc) none

/-- The code extracted from a selected label in apply_error_codes: the part of
the label before the first colon (the whole label when there is none), with
surrounding whitespace stripped. -/
def parseLabel (label : String) : String :=
  String.mk (trimChars (label.data.takeWhile (· != ':')))

/-- The markdown block apply_error_codes appends for one applied error code
with a truthy comment: two newlines, a space, three hash marks, a space, the
description, colon-space-minus, the formatted deduction, the letter P, a
newline, and the comment text. -/
def errorBlock (info : ErrorCode) : String :=
  "\n\n ### " ++ info.description ++ ": -" ++ fmtG info.deduction ++ "P\n" ++ info.comment.getD ""

/-- The body of the for-loop of apply_error_codes for one selected label. -/
def applyOneCode (codes : List ErrorCode) (acc : Rat × String) (label : String) : Rat × String :=
  match codeMapLookup codes (parseLabel label) with
  | none => acc
  | some info =>
      (max 0 (acc.1 - info.deduction),
       if commentTruthy info.comment then acc.2 ++ errorBlock info else acc.2)

/-- apply_error_codes from src/app/helpers.py: fold the loop body over the
selected labels in order, starting from the current points and markdown. -/
def apply_error_codes (selected : List String) (codes : List ErrorCode)
    (p : Rat) (md : String) : Rat × String :=
  selected.foldl (applyOneCode codes) (p, md)

/-- Concatenation of a list of strings, used to state which markdown text a
whole run of apply_error_codes appends. -/
def strJoin : List String → String
  | [] => ""
  | s :: ss => s ++ strJoin ss

/-- The markdown text one selected label contributes: the errorBlock when its
code resolves and has a truthy comment, nothing otherwise. -/
def blockFor (codes : List ErrorCode) (label : String) : String :=
  match codeMapLookup codes (parseLabel label) with
  | none => ""
  | some info => if commentTruthy info.comment then errorBlock info else ""

/-! ### Marks-CSV Writer (src/app/utils.py) -/

/-- Round-to-integer with ties to even, applied to one hundred times the
argument, via integer arithmetic on the reduced fraction. This embeds the
decimal rounding performed by Python fixed-point formatting with two digits;
it is exact on inputs whose decimal expansion coincides with the shortest
representation of the underlying float, in particular on all inputs with at
most two fractional decimal digits, which is what the grading UI produces. -/
def roundHalfEvenCents (q : Rat) : Int :=
  let n := q.num * 100
  let d : Int := (q.den : Int)
  let f := Int.fdiv n d
  let r := n - f * d
  if 2 * r < d then f
  else if d < 2 * r then f + 1
  else if f % 2 == 0 then f else f + 1

/-- The private points formatter of src/app/utils.py: two-decimal fixed
formatting of the value, then trailing zeros and then a trailing decimal
point stripped from the right, an empty result replaced by a single zero. -/
def format_points (q : Rat) : String :=
  let scaled := roundHalfEvenCents q
  let ds := natDigits scaled.natAbs
  let ds := if ds.length ≤ 2 then List.replicate (3 - ds.length) '0' ++ ds else ds
  let text := (if scaled < 0 then ['-'] else []) ++
    ds.take (ds.length - 2) ++ '.' :: ds.drop (ds.length - 2)
  let text := if text.contains '.' then rstripChar '.' (rstripChar '0' text) else text
  if text.isEmpty then "0" else String.mk text

/-- The exceptions update_marks_csv can raise: FileNotFoundError when
marks.csv is absent, ValueError when no data row carries the submission id,
IndexError when the matched row is too short for the points or status
column. -/
inductive MarksError
  | fileNotFound
  | valueError
  | indexError
deriving DecidableEq, Repr

/-- The row test of the update loop in update_marks_csv: a row participates
when it is nonempty and its first field equals the submission id. -/
def rowMatches (sid : String) (row : List String) : Bool :=
  match row with
  | [] => false
  | f :: _ => f == sid

/-- The loop and rewrite of update_marks_csv once the file was read: the
first data row after the header that is nonempty with first field equal to the
submission id gets its fifth field replaced by the formatted points and its
sixth by the status; no matching row raises ValueError, and a matching row
with fewer than six fields raises IndexError from the item assignment. -/
def update_marks_rows (rows : List (List String)) (sid : String)
    (points : Rat) (status : String) : Except MarksError (List (List String)) :=
  match (rows.drop 1).findIdx? (rowMatches sid) with
  | none => .error .valueError
  | some i =>
      if ((rows.drop 1).getD i []).length < 6 then .error .indexError
      else .ok (rows.set (i + 1)
        ((((rows.drop 1).getD i []).set 4 (format_points points)).set 5 status))

/-- update_marks_csv from src/app/utils.py at the level of parsed CSV rows.
The file argument is none when marks.csv does not exist, which raises
FileNotFoundError; in every error case the write phase is never reached. -/
def update_marks_csv (file : Option (List (List String))) (sid : String)
    (points : Rat) (status : String) : Except MarksError (List (List String)) :=
  match file with
  | none => .error .fileNotFound
  | some rows => update_marks_rows rows sid points status

/-- The contents of marks.csv after a call to update_marks_csv: the rewritten
rows on success, the unchanged prior contents when an exception was raised
before the write phase. -/
def update_marks_csv_post (file : Option (List (List String))) (sid : String)
    (points : Rat) (status : String) : Option (List (List String)) :=
  match update_marks_csv file sid points status with
  | .ok rows => some rows
  | .error _ => file

/-- One field as the Python csv reader parses it, restricted to the fields
this tool produces and reads: either fully surrounded by double quotes with
no embedded quote, comma or newline, or containing none of those characters.
On that domain the reader strips one layer of surrounding quotes. -/
def parseField (cs : List Char) : List Char :=
  match cs with
  | '"' :: rest => if rest ≠ [] ∧ rest.getLast? = some '"' then rest.dropLast else cs
  | _ => cs

/-- One line as the csv reader parses it: an empty line yields the empty row,
any other line is split at commas and each field unquoted. -/
def parseLine (cs : List Char) : List (List Char) :=
  if cs.isEmpty then [] else (splitOnChar ',' cs).map parseField

/-- A whole marks.csv as the csv reader parses it when the file uses bare
newline line terminators: the byte content split at newlines, a final empty
segment after the trailing newline dropped, each line parsed to a row. -/
def parseCsv (content : String) : List (List String) :=
  let ls := splitOnChar '\n' content.data
  let ls := if ls.getLast? = some [] then ls.dropLast else ls
  ls.map (fun l => (parseLine l).map String.mk)

/-- Whether the csv writer must quote a field under minimal quoting: it
contains the delimiter, the quote character, or a line-terminator
character. -/
def needsQuote (cs : List Char) : Bool :=
  cs.any (fun c => c == ',' || c == '"' || c == '\n' || c == '\r')

/-- Quote doubling inside a quoted csv field. -/
def escapeQuotes : List Char → List Char
  | [] => []
  | '"' :: cs => '"' :: '"' :: escapeQuotes cs
  | c :: cs => c :: escapeQuotes cs

/-- One field as the csv writer serialises it with minimal quoting. -/
def writeField (s : String) : List Char :=
  if needsQuote s.data then '"' :: (escapeQuotes s.data ++ ['"']) else s.data

/-- A whole row set as the csv writer serialises it: fields joined by commas,
every row terminated by carriage return and line feed, the writer's default
line terminator. -/
def writeCsv (rows : List (List String)) : String :=
  String.mk ((rows.map (fun r => List.intercalate [','] (r.map writeField) ++ ['\r', '\n'])).flatten)

/-- Decidable equality of error-or-value results, used only to evaluate the
model on concrete inputs. -/
instance instDecEqExcept {ε α : Type} [DecidableEq ε] [DecidableEq α] :
    DecidableEq (Except ε α) := fun x y =>
  match x, y with
  | .ok a, .ok b => if h : a = b then isTrue (by rw [h]) else isFalse (by simp [h])
  | .error e, .error f => if h : e = f then isTrue (by rw [h]) else isFalse (by simp [h])
  | .ok _, .error _ => isFalse (by simp)
  | .error _, .ok _ => isFalse (by simp)

/-- update_marks_csv at the level of file bytes: parse the current contents
with the csv reader, update the rows, re-serialise every row with the csv
writer. -/
def update_marks_csv_bytes (content : Option String) (sid : String)
    (points : Rat) (status : String) : Except MarksError String :=
  match content with
  | none => .error .fileNotFound
  | some c => (update_marks_csv (some (parseCsv c)) sid points status).map writeCsv

/-! ### Grading Store data model (the sqlite schema of src/app/db.py)

Only the columns the verified operations read or write are modelled. The
sqlite driver is used without PRAGMA foreign_keys = ON, so the declared
referential actions are not enforced and rows of one table never change when
another table is written; UNIQUE and CHECK constraints are enforced by sqlite
and surface below as error results where the modelled code can violate them. -/

/-- A row of the sheets table: id and the unique name. -/
structure Sheet where
  id : Nat
  name : String
deriving DecidableEq, Repr

/-- A row of the exercises table: id, owning sheet and the code unique per
sheet. -/
structure Exercise where
  id : Nat
  sheet_id : Nat
  code : String
deriving DecidableEq, Repr

/-- A row of the submissions table, the columns touched by the Reconciler and
the grading accessors; exercise_id is nullable, submitter can be the SQL NULL
inserted when marks.csv lists an id without a group field. -/
structure Submission where
  id : Nat
  path : String
  group_name : String
  submitter : Option String
  sheet_id : Nat
  exercise_id : Option Nat
  status : String
deriving DecidableEq, Repr

/-- A row of the feedback table: points, markdown and pdf path are nullable
columns. -/
structure Feedback where
  id : Nat
  submission_id : Nat
  sheet_id : Nat
  exercise_id : Option Nat
  points : Option Rat
  markdown_content : Option String
  pdf_path : Option String
deriving DecidableEq, Repr

/-- The grading database: each table as its list of rows in rowid order, plus
the next value of each AUTOINCREMENT primary key (cursor.lastrowid after an
insert). -/
structure DB where
  sheets : List Sheet
  exercises : List Exercise
  submissions : List Submission
  feedback : List Feedback
  next_sheet_id : Nat
  next_exercise_id : Nat
  next_submission_id : Nat
  next_feedback_id : Nat
deriving DecidableEq, Repr

/-! ### Directory Scanner and Reconciler (scan_and_insert_submissions) -/

/-- One entry of the root directory listing: its name, whether it is a
directory, and — when it is — its own listing one level down (name and
directory flag of each child). Real directory listings have pairwise distinct
names; theorems that need this state it as a hypothesis. -/
structure FSEntry where
  name : String
  isDir : Bool
  children : List (String × Bool)
deriving DecidableEq, Repr

/-- The filesystem as the Reconciler observes it: the root directory path
(assumed without a trailing separator, as the UI passes it), the parsed rows
of marks.csv when the file exists (when present it is assumed to start with
its header line; an entirely empty file would raise StopIteration in the
loader before any database write), and the root directory listing. -/
structure FS where
  rootDir : String
  marksCsv : Option (List (List String))
  entries : List FSEntry
deriving DecidableEq, Repr

/-- os.path.basename on a path without trailing separator: the part after the
last slash. -/
def basename (p : String) : String :=
  String.mk ((splitOnChar '/' p.data).getLastD p.data)

/-- os.path.join for a base without trailing separator and a plain relative
component, the only shapes the scanner builds. -/
def pathJoin (a b : String) : String :=
  a ++ "/" ++ b

/-- The exercise-directory test of the scanner: the lower-cased name starts
with the exercise prefix or its historical misspelling (ASCII lower-casing;
the directory names in scope are ASCII). -/
def isExerciseDir (name : String) : Bool :=
  let l := name.data.map Char.toLower
  List.isPrefixOf "excercise-".data l || List.isPrefixOf "exercise-".data l

/-- The submission id extracted from a submission directory name: the part
after the last underscore, the whole name when there is none. -/
def submissionIdOf (dirName : String) : String :=
  String.mk ((splitOnChar '_' dirName.data).getLastD dirName.data)

/-- The names dict built by load_names_from_csv, as a lookup: the first row
(the header) is skipped, empty rows are skipped by the csv DictReader, field
zero of a row is the submission-id key and field one the group value (SQL
None when the row has a single field); a later duplicate key overwrites an
earlier one. Returns none when the key is absent, some of the stored value
otherwise. -/
def namesLookup (rows : List (List String)) (key : String) : Option (Option String) :=
  (rows.drop 1).foldl
    (fun acc row =>
      match row with
      | [] => acc
      | f0 :: rest => if f0 = key then some rest.head? else acc)
    none

/-- names.get(submissionid, submission_dir) in the scanner: the group mapped
to the extracted id when marks.csv exists and lists it, the raw directory
name otherwise. -/
def submitterFor (marksCsv : Option (List (List String))) (sid dirName : String) :
    Option String :=
  match marksCsv with
  | none => some dirName
  | some rows =>
      match namesLookup rows sid with
      | some v => v
      | none => some dirName

/-- The existing_status_by_path snapshot taken before the scan loop: path and
status of every submission row of the resolved sheet. -/
def statusSnapshot (subs : List Submission) (sid : Nat) : List (String × String) :=
  (subs.filter (fun s => s.sheet_id == sid)).map (fun s => (s.path, s.status))

/-- Lookup in a dict built by iterated assignment: the last binding of a key
wins. -/
def dictLast (m : List (String × String)) (k : String) : Option String :=
  m.foldl (fun acc kv => if kv.1 = k then some kv.2 else acc) none

/-- The cursor state threaded through the scan loop: the database connection's
view of the tables and the discovered_paths set (as the list of paths added,
membership is what the set is used for). -/
structure ScanState where
  db : DB
  discovered : List String
deriving DecidableEq, Repr

/-- The column values the UPDATE statement of the scan loop writes into every
submission row matching the discovered path. -/
def submissionUpdate (dirName : String) (submitter : Option String) (sid eid : Nat)
    (status : String) (s : Submission) : Submission :=
  { s with group_name := dirName, submitter := submitter, sheet_id := sid,
           exercise_id := some eid, status := status }

/-- The body of the inner scan loop for one child of an exercise directory:
non-directories are skipped; for a directory, the submission id is the part of
the name after the last underscore, the submitter comes from the names dict,
the status is the snapshotted one (SUBMITTED when the path is not in the
snapshot), and the row is updated when any row carries the path, inserted
otherwise; the path is added to discovered_paths either way. -/
def processSubmission (snap : List (String × String)) (marksCsv : Option (List (List String)))
    (sid eid : Nat) (exercisePath : String) (st : ScanState) (child : String × Bool) :
    ScanState :=
  if child.2 then
    if st.db.submissions.any (fun s => s.path == pathJoin exercisePath child.1) then
      { db := { st.db with submissions := st.db.submissions.map (fun s =>
          if s.path == pathJoin exercisePath child.1
          then submissionUpdate child.1 (submitterFor marksCsv (submissionIdOf child.1) child.1)
                 sid eid ((dictLast snap (pathJoin exercisePath child.1)).getD "SUBMITTED") s
          else s) },
        discovered := st.discovered ++ [pathJoin exercisePath child.1] }
    else
      { db := { st.db with
          submissions := st.db.submissions ++
            [{ id := st.db.next_submission_id, path := pathJoin exercisePath child.1,
               group_name := child.1,
               submitter := submitterFor marksCsv (submissionIdOf child.1) child.1,
               sheet_id := sid, exercise_id := some eid,
               status := (dictLast snap (pathJoin exercisePath child.1)).getD "SUBMITTED" }],
          next_submission_id := st.db.next_submission_id + 1 },
        discovered := st.discovered ++ [pathJoin exercisePath child.1] }
  else st

/-- Resolve-or-create of the exercise row for one exercise directory: the
first row with this sheet and code, else an insert returning lastrowid. -/
def resolveExercise (sid : Nat) (code : String) (db : DB) : Nat × DB :=
  match db.exercises.find? (fun e => e.sheet_id == sid && e.code == code) with
  | some e => (e.id, db)
  | none => (db.next_exercise_id,
      { db with exercises := db.exercises ++ [⟨db.next_exercise_id, sid, code⟩],
                next_exercise_id := db.next_exercise_id + 1 })

/-- The body of the outer scan loop for one entry of the root listing: only
directories whose lower-cased name starts with the exercise prefix are
processed; the exercise row is resolved or created, then every child is
processed by the inner loop. -/
def processEntry (snap : List (String × String)) (marksCsv : Option (List (List String)))
    (rootDir : String) (sid : Nat) (st : ScanState) (e : FSEntry) : ScanState :=
  if e.isDir && isExerciseDir e.name then
    e.children.foldl
      (processSubmission snap marksCsv sid (resolveExercise sid e.name st.db).1
        (pathJoin rootDir e.name))
      { db := (resolveExercise sid e.name st.db).2, discovered := st.discovered }
  else st

/-- Resolve-or-create of the sheet row keyed by the root directory's base
name. -/
def resolveSheet (name : String) (db : DB) : Nat × DB :=
  match db.sheets.find? (fun s => s.name == name) with
  | some s => (s.id, db)
  | none => (db.next_sheet_id,
      { db with sheets := db.sheets ++ [⟨db.next_sheet_id, name⟩],
                next_sheet_id := db.next_sheet_id + 1 })

/-- scan_and_insert_submissions from src/app/db.py: resolve or create the
sheet, snapshot path-to-status for its submission rows, load the names dict
when marks.csv exists, run the two scan loops, then delete every submission
row whose path is in the snapshot but was not discovered in this pass. The
DELETE names only the submissions table; with foreign keys unenforced no
feedback, files or history row is touched. All of it commits as one
transaction. -/
def scan_and_insert_submissions (db : DB) (fs : FS) : DB :=
  let rs := resolveSheet (basename fs.rootDir) db
  let snap := statusSnapshot rs.2.submissions rs.1
  let st := fs.entries.foldl (processEntry snap fs.marksCsv fs.rootDir rs.1)
    { db := rs.2, discovered := [] }
  { st.db with submissions := st.db.submissions.filter (fun s =>
      !((snap.map Prod.fst).contains s.path && !(st.discovered.contains s.path))) }

/-- The sheet id scan_and_insert_submissions resolves for a root directory,
exposed for the statements of the claims. -/
def resolvedSheetId (db : DB) (fs : FS) : Nat :=
  (resolveSheet (basename fs.rootDir) db).1

/-- The submission paths one root-listing entry contributes to a pass: the
joined path of each directory child when the entry is an exercise directory,
nothing otherwise. -/
def entryPaths (rootDir : String) (e : FSEntry) : List String :=
  if e.isDir && isExerciseDir e.name then
    (e.children.filter (fun c => c.2)).map
      (fun c => pathJoin (pathJoin rootDir e.name) c.1)
  else []

/-- The set of submission paths one pass discovers, a pure function of the
filesystem: for every exercise directory, the joined path of each child
directory, in traversal order. -/
def discoveredOf (rootDir : String) : List FSEntry → List String
  | [] => []
  | e :: es => entryPaths rootDir e ++ discoveredOf rootDir es

/-- The submission rows carrying a given path, the unit the scan loop's
UPDATE and DELETE statements operate on. -/
def rowsAt (l : List Submission) (p : String) : List Submission :=
  l.filter (fun s => s.path == p)

/-- The values the scan loop records for one discovered submission directory
with name cname inside the exercise directory at epath: the column values of
both the UPDATE and the INSERT branch. -/
def scannedRow (snap : List (String × String)) (marksCsv : Option (List (List String)))
    (sid eid : Nat) (epath cname : String) (s : Submission) : Prop :=
  s.group_name = cname ∧
  s.submitter = submitterFor marksCsv (submissionIdOf cname) cname ∧
  s.sheet_id = sid ∧
  s.exercise_id = some eid ∧
  s.status = (dictLast snap (pathJoin epath cname)).getD "SUBMITTED"

/-- A submission table records the discovered directory cname of the exercise
directory at epath: at least one row carries its path, and every row carrying
its path carries the scanned column values. -/
def targetAt (l : List Submission) (snap : List (String × String))
    (marksCsv : Option (List (List String))) (sid eid : Nat)
    (epath cname : String) : Prop :=
  rowsAt l (pathJoin epath cname) ≠ [] ∧
  ∀ s ∈ rowsAt l (pathJoin epath cname), scannedRow snap marksCsv sid eid epath cname s

/-- A database records a whole exercise directory: its exercise row resolves
by the scan's lookup, and every directory child is recorded with that
exercise id. -/
def entryTarget (l : List Submission) (exs : List Exercise)
    (snap : List (String × String)) (marksCsv : Option (List (List String)))
    (rootDir : String) (sid : Nat) (e : FSEntry) : Prop :=
  ∃ ex, exs.find? (fun x => x.sheet_id == sid && x.code == e.name) = some ex ∧
    ∀ c ∈ e.children, c.2 = true →
      targetAt l snap marksCsv sid ex.id (pathJoin rootDir e.name) c.1

/-- The snapshot scan_and_insert_submissions takes, exposed by name for the
statements and proofs of the claims. -/
def scanSnap (db : DB) (fs : FS) : List (String × String) :=
  statusSnapshot (resolveSheet (basename fs.rootDir) db).2.submissions
    (resolveSheet (basename fs.rootDir) db).1

/-- The cursor state after the two scan loops of scan_and_insert_submissions,
exposed by name. -/
def scanState (db : DB) (fs : FS) : ScanState :=
  fs.entries.foldl
    (processEntry (scanSnap db fs) fs.marksCsv fs.rootDir
      (resolveSheet (basename fs.rootDir) db).1)
    { db := (resolveSheet (basename fs.rootDir) db).2, discovered := [] }

/-- The obsolete-pruning test of scan_and_insert_submissions: a row survives
unless its path is in the snapshot and was not discovered. -/
def scanKeep (db : DB) (fs : FS) (s : Submission) : Bool :=
  !(((scanSnap db fs).map Prod.fst).contains s.path &&
    !((scanState db fs).discovered.contains s.path))

/-! ### Feedback upsert (save_feedback_with_submission) -/

/-- The exceptions save_feedback_with_submission can raise: the explicit
ValueError when the submission id does not exist, and the sqlite
IntegrityError when the status violates the CHECK constraint of the
submissions table; the latter aborts the transaction before commit, leaving
the database unchanged, which the error result stands for. -/
inductive SaveError
  | submissionNotFound
  | invalidStatus
deriving DecidableEq, Repr

/-- The CHECK constraint on submissions.status. -/
def validStatus (s : String) : Bool :=
  s == "SUBMITTED" || s == "PROVISIONAL_MARK" || s == "FINAL_MARK" ||
  s == "RESUBMITTED" || s == "ABSEND" || s == "SICK"

/-- The feedback upsert of save_feedback_with_submission: update every
feedback row of the submission when one exists (denormalised sheet and
exercise from the submission row, the new points, markdown and pdf path),
insert one otherwise. -/
def save_feedback_upsertFeedback (db : DB) (sub : Submission) (submission_id : Nat)
    (points : Rat) (markdown_content : String) (pdf_path : Option String) : DB :=
  if db.feedback.any (fun f => f.submission_id == submission_id) then
    { db with feedback := db.feedback.map (fun f =>
        if f.submission_id == submission_id then
          { f with sheet_id := sub.sheet_id, exercise_id := sub.exercise_id,
                   points := some points, markdown_content := some markdown_content,
                   pdf_path := pdf_path }
        else f) }
  else
    { db with
        feedback := db.feedback ++
          [{ id := db.next_feedback_id, submission_id := submission_id,
             sheet_id := sub.sheet_id, exercise_id := sub.exercise_id,
             points := some points, markdown_content := some markdown_content,
             pdf_path := pdf_path }],
        next_feedback_id := db.next_feedback_id + 1 }

/-- The status write of save_feedback_with_submission. -/
def save_feedback_setStatus (db : DB) (submission_id : Nat) (status : String) : DB :=
  { db with submissions := db.submissions.map (fun s =>
      if s.id == submission_id then { s with status := status } else s) }

/-- The writes of save_feedback_with_submission once the submission row was
found: the feedback upsert then the status write, one transaction, so a
status violating the CHECK constraint rolls everything back (modelled as the
error result standing for the unchanged database). -/
def save_feedback_body (db : DB) (sub : Submission) (submission_id : Nat)
    (status : String) (points : Rat) (markdown_content : String)
    (pdf_path : Option String) : Except SaveError DB :=
  if validStatus status then
    .ok (save_feedback_setStatus
      (save_feedback_upsertFeedback db sub submission_id points markdown_content pdf_path)
      submission_id status)
  else .error .invalidStatus

/-- save_feedback_with_submission from src/app/db.py: look up the submission
(ValueError when absent), then run the feedback upsert and status write. -/
def save_feedback_with_submission (db : DB) (submission_id : Nat) (status : String)
    (points : Rat) (markdown_content : String) (pdf_path : Option String) :
    Except SaveError DB :=
  match db.submissions.find? (fun s => s.id == submission_id) with
  | none => .error .submissionNotFound
  | some sub => save_feedback_body db sub submission_id status points markdown_content pdf_path

/-- One call to save_feedback_with_submission as the grading UI issues it. -/
structure FeedbackCall where
  status : String
  points : Rat
  markdown : String
  pdf_path : Option String
deriving DecidableEq, Repr

/-- A sequence of save_feedback_with_submission calls for one submission,
stopping at the first error. -/
def applyFeedbackCalls (db : DB) (submission_id : Nat) :
    List FeedbackCall → Except SaveError DB
  | [] => .ok db
  | c :: cs =>
      (save_feedback_with_submission db submission_id c.status c.points
          c.markdown c.pdf_path).bind
        (fun db1 => applyFeedbackCalls db1 submission_id cs)

/-- The number of feedback rows carrying a submission id, the quantity the
upsert claim is about. -/
def feedbackCount (db : DB) (sid : Nat) : Nat :=
  (db.feedback.filter (fun f => f.submission_id == sid)).length

/-! ### Submission listing and review stepping -/

/-- One row of the SELECT of get_submissions: submission id, path, group
name, submitter, exercise code from the joined exercises row, status. -/
structure SubRow where
  id : Nat
  path : String
  group_name : String
  submitter : Option String
  exercise_code : String
  status : String
deriving DecidableEq, Repr

/-- Insertion into a list sorted by ascending id. -/
def insertById (s : SubRow) : List SubRow → List SubRow
  | [] => [s]
  | t :: ts => if s.id ≤ t.id then s :: t :: ts else t :: insertById s ts

/-- Sorting by ascending id, the ORDER BY of get_submissions. -/
def sortById : List SubRow → List SubRow
  | [] => []
  | s :: ss => insertById s (sortById ss)

/-- get_submissions from src/app/db.py: the inner join of submissions with
exercises on submissions.exercise_id = exercises.id (a NULL exercise_id joins
nothing), optionally filtered by exercise code, ordered by submission id. -/
def get_submissions (db : DB) (exercise_code : Option String) : List SubRow :=
  let joined := db.submissions.flatMap (fun s =>
    (db.exercises.filter (fun e => s.exercise_id == some e.id)).map (fun e =>
      { id := s.id, path := s.path, group_name := s.group_name,
        submitter := s.submitter, exercise_code := e.code, status := s.status }))
  let filtered := match exercise_code with
    | none => joined
    | some c => joined.filter (fun r => r.exercise_code == c)
  sortById filtered

/-- get_review_submission_ids: the ids of get_submissions in order. -/
def get_review_submission_ids (db : DB) (exercise_code : Option String) : List Nat :=
  (get_submissions db exercise_code).map (fun r => r.id)

/-- The current index step_review_current_submission starts from: the index
of the saved id when it is in the list (the saved id is none when the grader
state holds nothing parseable; nothing is ever in the list of ids in Python's
membership test then), else the start of the list for a nonnegative step and
its end for a negative one. -/
def stepSavedIndex (ids : List Nat) (saved : Option Nat) (stepv : Int) : Int :=
  match saved with
  | some v =>
      if ids.contains v then ((ids.indexOf v : Nat) : Int)
      else if 0 ≤ stepv then 0 else (ids.length : Int) - 1
  | none => if 0 ≤ stepv then 0 else (ids.length : Int) - 1

/-- The clamping of the moved index in step_review_current_submission: below
zero becomes zero, at or past the length becomes the last index. -/
def clampIndex (len : Nat) (i : Int) : Int :=
  if i < 0 then 0
  else if (len : Int) ≤ i then (len : Int) - 1
  else i

/-- step_review_current_submission from src/app/db.py over the filtered,
ordered id list and the persisted current id: an empty list raises ValueError
(modelled as none); otherwise the current index moves by the step, is clamped
to the valid range, and the id there is returned (and persisted into the
grader state by the code, which the caller of this model threads). -/
def step_review_current_submission (ids : List Nat) (saved : Option Nat)
    (stepv : Int) : Option Nat :=
  if ids.isEmpty then none
  else ids[(clampIndex ids.length (stepSavedIndex ids saved stepv + stepv)).toNat]?

/-! ### Concrete scan scenarios -/

/-- A database holding sheet Sheet-1 with one exercise and one already fully
graded submission whose directory is still on disk. -/
def dbScanIdem : DB :=
  { sheets := [⟨1, "Sheet-1"⟩],
    exercises := [⟨1, 1, "exercise-1"⟩],
    submissions := [⟨1, "/data/Sheet-1/exercise-1/grp_a1", "grp_a1", some "grp_a1",
      1, some 1, "FINAL_MARK"⟩],
    feedback := [],
    next_sheet_id := 2, next_exercise_id := 2, next_submission_id := 2,
    next_feedback_id := 1 }

/-- The matching filesystem: the sheet root with one exercise directory
holding the graded submission directory and a fresh one. -/
def fsScanIdem : FS :=
  { rootDir := "/data/Sheet-1",
    marksCsv := none,
    entries := [⟨"exercise-1", true, [("grp_a1", true), ("grp_b2", true)]⟩] }

/-- A database holding one submission row whose directory has been removed
from disk, together with its feedback row. -/
def dbScanPrune : DB :=
  { sheets := [⟨1, "Sheet-1"⟩],
    exercises := [⟨1, 1, "exercise-1"⟩],
    submissions := [⟨1, "/data/Sheet-1/exercise-1/grp_a1", "grp_a1", some "grp_a1",
      1, some 1, "FINAL_MARK"⟩],
    feedback := [⟨1, 1, 1, some 1, some 3, some "ok", none⟩],
    next_sheet_id := 2, next_exercise_id := 2, next_submission_id := 2,
    next_feedback_id := 2 }

/-- The sheet root after the submission directory was deleted: the exercise
directory is still there but empty. -/
def fsScanPrune : FS :=
  { rootDir := "/data/Sheet-1",
    marksCsv := none,
    entries := [⟨"exercise-1", true, []⟩] }

/-! ## Lemmas and claim theorems -/

theorem apply_error_codes_cons (codes : List ErrorCode) (l : String) (ls : List String)
    (p : Rat) (md : String) :
    apply_error_codes (l :: ls) codes p md
      = apply_error_codes ls codes (applyOneCode codes (p, md) l).1
          (applyOneCode codes (p, md) l).2 := by
  simp [apply_error_codes]

theorem apply_error_codes_nonneg (selected : List String) (codes : List ErrorCode)
    (p : Rat) (md : String) (hp : 0 ≤ p) :
    0 ≤ (apply_error_codes selected codes p md).1 := by
  induction selected generalizing p md with
  | nil => exact hp
  | cons l ls ih =>
      rw [apply_error_codes_cons]
      refine ih _ _ ?_
      cases hc : codeMapLookup codes (parseLabel l) with
      | none => simpa [applyOneCode, hc] using hp
      | some info => simp [applyOneCode, hc, le_max_left]

theorem apply_error_codes_snd_eq (selected : List String) (codes : List ErrorCode)
    (p : Rat) (md : String) :
    (apply_error_codes selected codes p md).2
      = md ++ strJoin (selected.map (blockFor codes)) := by
  induction selected generalizing p md with
  | nil => simp [apply_error_codes, strJoin]
  | cons l ls ih =>
      rw [apply_error_codes_cons, ih, List.map_cons]
      show _ = md ++ strJoin (blockFor codes l :: List.map (blockFor codes) ls)
      rw [strJoin]
      cases hc : codeMapLookup codes (parseLabel l) with
      | none => simp [applyOneCode, blockFor, hc]
      | some info =>
          cases hcomm : commentTruthy info.comment with
          | false => simp [applyOneCode, blockFor, hc, hcomm]
          | true => simp [applyOneCode, blockFor, hc, hcomm, String.append_assoc]

/-- C5: apply_error_codes folds over the selected labels in the order given; a
label whose code is among the available codes subtracts its deduction from the
running total clamped at zero independently at that step, a label whose code
is absent is skipped without error and changes neither points nor markdown,
and from a nonnegative starting total the resulting points are never
negative. -/
theorem apply_error_codes_clamps (codes : List ErrorCode) (p : Rat) (md : String)
    (hp : 0 ≤ p) :
    (∀ selected, 0 ≤ (apply_error_codes selected codes p md).1) ∧
    (∀ label selected info, codeMapLookup codes (parseLabel label) = some info →
      apply_error_codes (label :: selected) codes p md =
        apply_error_codes selected codes (max 0 (p - info.deduction))
          (if commentTruthy info.comment then md ++ errorBlock info else md)) ∧
    (∀ label selected, codeMapLookup codes (parseLabel label) = none →
      apply_error_codes (label :: selected) codes p md =
        apply_error_codes selected codes p md) := by
  refine ⟨fun selected => apply_error_codes_nonneg selected codes p md hp, ?_, ?_⟩
  · intro label selected info hinfo
    rw [apply_error_codes_cons]
    simp [applyOneCode, hinfo]
  · intro label selected hnone
    rw [apply_error_codes_cons]
    simp [applyOneCode, hnone]

/-- Witness for C5: with a running total of 2 and a selected code deducting 5,
the resulting points are exactly 0, never negative; the starting total is
nonnegative as the theorem requires. -/
theorem apply_error_codes_clamps_witness :
    (0 : Rat) ≤ 2 ∧
      0 ≤ (apply_error_codes ["X1: stale"] [⟨"X1", "late", 5, none⟩] 2 "").1 ∧
      (apply_error_codes ["X1: stale"] [⟨"X1", "late", 5, none⟩] 2 "").1 = 0 := by
  have hnn := (apply_error_codes_clamps [⟨"X1", "late", 5, none⟩] 2 "" (by norm_num)).1
      ["X1: stale"]
  have hlook : codeMapLookup [⟨"X1", "late", 5, none⟩] (parseLabel "X1: stale")
      = some ⟨"X1", "late", 5, none⟩ := by decide
  have hstep := (apply_error_codes_clamps [⟨"X1", "late", 5, none⟩] 2 "" (by norm_num)).2.1
      "X1: stale" [] ⟨"X1", "late", 5, none⟩ hlook
  refine ⟨by norm_num, hnn, ?_⟩
  rw [hstep]
  show max 0 ((2 : Rat) - 5) = 0
  norm_num

/-- C6 counterexample: the code does not append a block of exactly the claimed
form; the appended text carries two leading newlines and a space before the
hash marks, so the resulting markdown differs from the current markdown
followed by the block the claim states. -/
theorem apply_error_codes_block_form_counterexample :
    (apply_error_codes ["E1"] [⟨"E1", "Desc", 1, some "note"⟩] 5 "md").2
        = "md" ++ "\n\n ### Desc: -1P\nnote" ∧
      "md" ++ "\n\n ### Desc: -1P\nnote" ≠ "md" ++ "### Desc: -1P\nnote" := by
  constructor
  · decide
  · decide

/-- C6 as amended: the resulting markdown of apply_error_codes is the starting
markdown followed by, in selection order, one block per selected label, where
a label with a known code and truthy comment contributes errorBlock info (two
newlines and one space, then three hash marks, the description, a colon, the
formatted deduction between minus sign and the letter P, a newline and the
comment), and a label with an unknown code or an empty or absent comment
contributes nothing. -/
theorem apply_error_codes_markdown_blocks (selected : List String)
    (codes : List ErrorCode) (p : Rat) (md : String) :
    (apply_error_codes selected codes p md).2
      = md ++ strJoin (selected.map (blockFor codes)) :=
  apply_error_codes_snd_eq selected codes p md

theorem seven_point_five_eq :
    (15 / 2 : Rat) = Rat.mk' 15 2 (by norm_num) (by norm_num) := by
  rw [Rat.mk'_eq_divInt, Rat.divInt_eq_div]; norm_num

theorem format_points_seven_half : format_points (15 / 2) = "7.5" := by
  rw [seven_point_five_eq]
  decide

/-- C7: update_marks_csv fails with the FileNotFoundError class whenever
marks.csv does not exist, fails with the ValueError class whenever the file
exists but no data row after the header is nonempty with first field equal to
the submission id, and whenever it fails the prior contents of the file are
unchanged, because the write phase is only reached after a row matched. -/
theorem update_marks_csv_error_behaviour (file : Option (List (List String)))
    (sid : String) (points : Rat) (status : String) :
    (file = none → update_marks_csv file sid points status = .error .fileNotFound) ∧
    (∀ rows, file = some rows →
      (∀ row ∈ rows.drop 1, rowMatches sid row = false) →
      update_marks_csv file sid points status = .error .valueError) ∧
    (∀ e, update_marks_csv file sid points status = .error e →
      update_marks_csv_post file sid points status = file) := by
  refine ⟨?_, ?_, ?_⟩
  · intro h; subst h; rfl
  · intro rows hrows hnone
    subst hrows
    have hidx : (rows.drop 1).findIdx? (rowMatches sid) = none := by
      rw [List.findIdx?_eq_none_iff]
      intro x hx
      simpa using hnone x hx
    show update_marks_rows rows sid points status = .error .valueError
    unfold update_marks_rows
    rw [hidx]
  · intro e herr
    unfold update_marks_csv_post
    rw [herr]

/-- Witness for C7: a missing file yields FileNotFoundError, a file whose only
data row carries a different submission id yields ValueError, and in that
error case the contents are unchanged. -/
theorem update_marks_csv_error_behaviour_witness :
    update_marks_csv none "A" 1 "FINAL_MARK" = .error .fileNotFound ∧
    update_marks_csv (some [["#h"], ["B", "g", "s", "e", "1", "SUBMITTED"]]) "A" 1 "FINAL_MARK"
      = .error .valueError ∧
    update_marks_csv_post (some [["#h"], ["B", "g", "s", "e", "1", "SUBMITTED"]]) "A" 1 "FINAL_MARK"
      = some [["#h"], ["B", "g", "s", "e", "1", "SUBMITTED"]] := by
  have h1 := (update_marks_csv_error_behaviour none "A" 1 "FINAL_MARK").1 rfl
  have h2 := (update_marks_csv_error_behaviour
      (some [["#h"], ["B", "g", "s", "e", "1", "SUBMITTED"]]) "A" 1 "FINAL_MARK").2.1
      [["#h"], ["B", "g", "s", "e", "1", "SUBMITTED"]] rfl (by decide)
  have h3 := (update_marks_csv_error_behaviour
      (some [["#h"], ["B", "g", "s", "e", "1", "SUBMITTED"]]) "A" 1 "FINAL_MARK").2.2
      .valueError h2
  exact ⟨h1, h2, h3⟩

/-- C8 counterexample: updating a file whose first data row contains an
unnecessarily quoted field rewrites that row without the quotes and with the
writer's carriage-return line terminator, so a row the claim requires to stay
byte-identical changes: the second line of the input is the quoted row, the
second line of the output is not. -/
theorem update_marks_csv_bytes_counterexample :
    update_marks_csv_bytes
        (some "#id,group,sheet,exercise,points,status\n\"X\",Y,s,e,0,SUBMITTED\nA,B,s,e,1,SUBMITTED\n")
        "A" (15 / 2) "FINAL_MARK"
      = .ok "#id,group,sheet,exercise,points,status\r\nX,Y,s,e,0,SUBMITTED\r\nA,B,s,e,7.5,FINAL_MARK\r\n" ∧
    (splitOnChar '\n'
        "#id,group,sheet,exercise,points,status\n\"X\",Y,s,e,0,SUBMITTED\nA,B,s,e,1,SUBMITTED\n".data).get? 1
      = some "\"X\",Y,s,e,0,SUBMITTED".data ∧
    (splitOnChar '\n'
        "#id,group,sheet,exercise,points,status\r\nX,Y,s,e,0,SUBMITTED\r\nA,B,s,e,7.5,FINAL_MARK\r\n".data).get? 1
      ≠ some "\"X\",Y,s,e,0,SUBMITTED".data := by
  refine ⟨?_, by decide, by decide⟩
  rw [seven_point_five_eq]
  decide

/-- C8 as amended: calling update_marks_csv with points seven and a half and
status FINAL_MARK on rows whose first matching data row sits at index i and
has at least six fields succeeds, replaces that row's fifth field with the
string for seven point five and its sixth with the final-mark status, leaves
every other field of that row and every other row equal as parsed field
lists — but not necessarily byte-identical, since the writer re-serialises
every row with minimal quoting and carriage-return line-feed terminators. -/
theorem update_marks_csv_round_trip (rows : List (List String)) (sid : String)
    (i : Nat) (r : List String)
    (hfind : (rows.drop 1).findIdx? (rowMatches sid) = some i)
    (hr : (rows.drop 1).getD i [] = r)
    (hlen : 6 ≤ r.length) :
    update_marks_csv (some rows) sid (15 / 2) "FINAL_MARK"
        = .ok (rows.set (i + 1) ((r.set 4 "7.5").set 5 "FINAL_MARK")) ∧
    ((r.set 4 "7.5").set 5 "FINAL_MARK")[4]? = some "7.5" ∧
    ((r.set 4 "7.5").set 5 "FINAL_MARK")[5]? = some "FINAL_MARK" ∧
    (∀ j, j ≠ i + 1 →
      (rows.set (i + 1) ((r.set 4 "7.5").set 5 "FINAL_MARK"))[j]? = rows[j]?) ∧
    (∀ j, j ≠ 4 → j ≠ 5 → ((r.set 4 "7.5").set 5 "FINAL_MARK")[j]? = r[j]?) := by
  have h4 : 4 < r.length := by omega
  have h5 : 5 < (r.set 4 "7.5").length := by simpa using (by omega : 5 < r.length)
  refine ⟨?_, ?_, ?_, ?_, ?_⟩
  · show update_marks_rows rows sid (15 / 2) "FINAL_MARK" = _
    unfold update_marks_rows
    rw [hfind]
    simp only [hr]
    rw [if_neg (by omega), format_points_seven_half]
  · rw [List.getElem?_set_ne (by omega)]
    exact List.getElem?_set_self (by omega)
  · exact List.getElem?_set_self h5
  · intro j hj
    exact List.getElem?_set_ne (fun h => hj h.symm)
  · intro j hj4 hj5
    rw [List.getElem?_set_ne (fun h => hj5 h.symm), List.getElem?_set_ne (fun h => hj4 h.symm)]

/-- Witness for C8: a concrete file with a header and one matching data row,
updated at submission id A with points seven and a half. -/
theorem update_marks_csv_round_trip_witness :
    update_marks_csv (some [["#h"], ["A", "B", "s", "e", "1", "SUBMITTED"]]) "A"
        (15 / 2) "FINAL_MARK"
      = .ok [["#h"], ["A", "B", "s", "e", "7.5", "FINAL_MARK"]] := by
  have h := (update_marks_csv_round_trip [["#h"], ["A", "B", "s", "e", "1", "SUBMITTED"]]
      "A" 0 ["A", "B", "s", "e", "1", "SUBMITTED"] (by decide) (by decide) (by decide)).1
  simpa using h

theorem stepSavedIndex_bounds (ids : List Nat) (saved : Option Nat) (stepv : Int)
    (h : ids ≠ []) :
    0 ≤ stepSavedIndex ids saved stepv ∧ stepSavedIndex ids saved stepv < ids.length := by
  have hlen : 0 < ids.length := List.length_pos.mpr h
  cases saved with
  | none =>
      simp only [stepSavedIndex]
      split_ifs <;> omega
  | some v =>
      simp only [stepSavedIndex]
      by_cases hv : ids.contains v
      · have hmem : v ∈ ids := by simpa using hv
        have hio : ids.indexOf v < ids.length := List.indexOf_lt_length.mpr hmem
        rw [if_pos hv]
        omega
      · rw [if_neg hv]
        split_ifs <;> omega

theorem clampIndex_eq_max_min (len : Nat) (i : Int) (h : 0 < len) :
    clampIndex len i = max 0 (min i ((len : Int) - 1)) := by
  unfold clampIndex
  split_ifs <;> omega

/-- C9: on a non-empty filtered, ordered id list, step_review_current_submission
always returns an element of the list, namely the one at the index reached by
moving the step from the current index and clamping at both ends (never
wrapping); stepping at or past the end returns the last id rather than an
error, and stepping before the start returns the first id. -/
theorem step_review_clamps (ids : List Nat) (saved : Option Nat) (delta : Int)
    (h : ids ≠ []) :
    ∃ r, step_review_current_submission ids saved delta = some r ∧ r ∈ ids ∧
      ids[(max 0 (min (stepSavedIndex ids saved delta + delta)
          ((ids.length : Int) - 1))).toNat]? = some r ∧
      ((ids.length : Int) ≤ stepSavedIndex ids saved delta + delta →
        r = ids.getLast h) ∧
      (stepSavedIndex ids saved delta + delta < 0 → ids.head? = some r) := by
  have hlen : 0 < ids.length := List.length_pos.mpr h
  have hb := stepSavedIndex_bounds ids saved delta h
  have hstep : step_review_current_submission ids saved delta
      = ids[(max 0 (min (stepSavedIndex ids saved delta + delta)
          ((ids.length : Int) - 1))).toNat]? := by
    unfold step_review_current_submission
    rw [if_neg (by simpa [List.isEmpty_iff] using h), clampIndex_eq_max_min _ _ hlen]
  have hidx : (max 0 (min (stepSavedIndex ids saved delta + delta)
      ((ids.length : Int) - 1))).toNat < ids.length := by omega
  refine ⟨ids[(max 0 (min (stepSavedIndex ids saved delta + delta)
      ((ids.length : Int) - 1))).toNat], ?_, List.getElem_mem hidx, ?_, ?_, ?_⟩
  · rw [hstep]
    exact List.getElem?_eq_getElem hidx
  · exact List.getElem?_eq_getElem hidx
  · intro hge
    have heq : (max 0 (min (stepSavedIndex ids saved delta + delta)
        ((ids.length : Int) - 1))).toNat = ids.length - 1 := by omega
    have h4 : ids[(max 0 (min (stepSavedIndex ids saved delta + delta)
        ((ids.length : Int) - 1))).toNat]? = ids[ids.length - 1]? := by rw [heq]
    have h2 := List.getElem?_eq_getElem (show ids.length - 1 < ids.length by omega)
    have h3 := List.getElem?_eq_getElem hidx
    rw [List.getLast_eq_getElem]
    exact Option.some.inj ((h3.symm.trans h4).trans h2)
  · intro hlt
    have heq : (max 0 (min (stepSavedIndex ids saved delta + delta)
        ((ids.length : Int) - 1))).toNat = 0 := by omega
    have h4 : ids[(max 0 (min (stepSavedIndex ids saved delta + delta)
        ((ids.length : Int) - 1))).toNat]? = ids[0]? := by rw [heq]
    rw [List.head?_eq_getElem?, ← h4]
    exact List.getElem?_eq_getElem hidx

/-- Witness for C9: the list of ids three, five, nine with the saved id nine
and a step of five past the end returns nine, the last id, not an error. -/
theorem step_review_clamps_witness :
    ([3, 5, 9] : List Nat) ≠ [] ∧
      step_review_current_submission [3, 5, 9] (some 9) 5 = some 9 := by
  refine ⟨by decide, ?_⟩
  obtain ⟨r, hr, hmem, hidx, hlast, hhead⟩ := step_review_clamps [3, 5, 9] (some 9) 5 (by decide)
  have hr9 : r = 9 := by
    have h9 := hlast (by decide)
    simpa using h9
  rw [hr, hr9]

theorem mem_insertById (x s : SubRow) (l : List SubRow) :
    x ∈ insertById s l ↔ x = s ∨ x ∈ l := by
  induction l with
  | nil => simp [insertById]
  | cons t ts ih =>
      unfold insertById
      split_ifs with hle
      · simp [List.mem_cons]
      · simp only [List.mem_cons, ih]
        tauto

theorem mem_sortById (x : SubRow) (l : List SubRow) : x ∈ sortById l ↔ x ∈ l := by
  induction l with
  | nil => simp [sortById]
  | cons s ss ih => simp [sortById, mem_insertById, ih]

theorem mem_get_submissions (db : DB) (filt : Option String) (r : SubRow)
    (hr : r ∈ get_submissions db filt) :
    ∃ t ∈ db.submissions, ∃ e ∈ db.exercises,
      t.exercise_id = some e.id ∧ r.id = t.id := by
  have hjoined : r ∈ db.submissions.flatMap (fun s =>
      (db.exercises.filter (fun e => s.exercise_id == some e.id)).map (fun e =>
        { id := s.id, path := s.path, group_name := s.group_name,
          submitter := s.submitter, exercise_code := e.code, status := s.status })) := by
    unfold get_submissions at hr
    cases filt with
    | none => exact (mem_sortById _ _).mp hr
    | some c => exact (List.mem_filter.mp ((mem_sortById _ _).mp hr)).1
  obtain ⟨t, ht, hrt⟩ := List.mem_flatMap.mp hjoined
  obtain ⟨e, he, hre⟩ := List.mem_map.mp hrt
  refine ⟨t, ht, e, (List.mem_filter.mp he).1, ?_, ?_⟩
  · have := (List.mem_filter.mp he).2
    simpa using this
  · rw [← hre]

/-- C10: get_submissions joins submissions to exercises with an inner join on
the exercise id, so a submission row whose exercise_id is NULL produces no
result row (for any exercise filter), and its id is therefore also absent
from the review-stepping id list built on it. -/
theorem get_submissions_omits_null_exercise (db : DB) (filt : Option String)
    (s : Submission) (hs : s ∈ db.submissions) (hnull : s.exercise_id = none)
    (hids : (db.submissions.map (fun t => t.id)).Nodup) :
    (∀ r ∈ get_submissions db filt, r.id ≠ s.id) ∧
      s.id ∉ get_review_submission_ids db filt := by
  have main : ∀ r ∈ get_submissions db filt, r.id ≠ s.id := by
    intro r hr hid
    obtain ⟨t, ht, e, he, hte, hrt⟩ := mem_get_submissions db filt r hr
    have hts : t = s := List.inj_on_of_nodup_map hids ht hs (by show t.id = s.id; rw [← hrt, hid])
    rw [hts, hnull] at hte
    exact Option.noConfusion hte
  refine ⟨main, ?_⟩
  intro hmem
  obtain ⟨r, hr, hrid⟩ := List.mem_map.mp hmem
  exact main r hr hrid

/-- Witness for C10: a database whose only submission row has a NULL
exercise_id despite an exercises row being present; the submission's id never
appears in the review id list. -/
theorem get_submissions_omits_null_exercise_witness :
    ((⟨1, "/d/Sheet-1/exercise-1/g_A", "g_A", some "g", 1, none, "SUBMITTED"⟩ :
        Submission).exercise_id = none) ∧
      1 ∉ get_review_submission_ids
        ⟨[⟨1, "Sheet-1"⟩], [⟨1, 1, "exercise-1"⟩],
         [⟨1, "/d/Sheet-1/exercise-1/g_A", "g_A", some "g", 1, none, "SUBMITTED"⟩],
         [], 2, 2, 2, 1⟩ none := by
  refine ⟨rfl, ?_⟩
  exact (get_submissions_omits_null_exercise
    ⟨[⟨1, "Sheet-1"⟩], [⟨1, 1, "exercise-1"⟩],
     [⟨1, "/d/Sheet-1/exercise-1/g_A", "g_A", some "g", 1, none, "SUBMITTED"⟩],
     [], 2, 2, 2, 1⟩ none
    ⟨1, "/d/Sheet-1/exercise-1/g_A", "g_A", some "g", 1, none, "SUBMITTED"⟩
    (by simp) rfl (by simp)).2

theorem save_feedback_single (db : DB) (sid : Nat) (c : FeedbackCall)
    (hsub : ∃ s ∈ db.submissions, s.id = sid)
    (hval : validStatus c.status = true)
    (hcount : feedbackCount db sid ≤ 1) :
    ∃ db1, save_feedback_with_submission db sid c.status c.points c.markdown c.pdf_path
        = .ok db1 ∧
      feedbackCount db1 sid = 1 ∧
      (∀ f ∈ db1.feedback, f.submission_id = sid →
        f.points = some c.points ∧ f.markdown_content = some c.markdown ∧
        f.pdf_path = c.pdf_path) ∧
      (∃ s ∈ db1.submissions, s.id = sid) ∧
      (∀ s ∈ db1.submissions, s.id = sid → s.status = c.status) := by
  obtain ⟨s0, hs0, hs0id⟩ := hsub
  have hfind : (db.submissions.find? (fun s => s.id == sid)).isSome := by
    rw [List.find?_isSome]
    exact ⟨s0, hs0, by simp [hs0id]⟩
  obtain ⟨sub, hsub'⟩ := Option.isSome_iff_exists.mp hfind
  have hred : save_feedback_with_submission db sid c.status c.points c.markdown c.pdf_path
      = .ok (save_feedback_setStatus
          (save_feedback_upsertFeedback db sub sid c.points c.markdown c.pdf_path)
          sid c.status) := by
    unfold save_feedback_with_submission
    rw [hsub']
    show save_feedback_body db sub sid c.status c.points c.markdown c.pdf_path = _
    unfold save_feedback_body
    rw [if_pos hval]
  have hupsub : (save_feedback_upsertFeedback db sub sid c.points c.markdown
      c.pdf_path).submissions = db.submissions := by
    unfold save_feedback_upsertFeedback
    split_ifs <;> rfl
  have hupcnt : feedbackCount
      (save_feedback_upsertFeedback db sub sid c.points c.markdown c.pdf_path) sid = 1 := by
    unfold save_feedback_upsertFeedback
    by_cases hany : db.feedback.any (fun f => f.submission_id == sid)
    · rw [if_pos hany]
      obtain ⟨f0, hf0, hf0id⟩ := List.any_eq_true.mp hany
      have hcnt1 : 1 ≤ feedbackCount db sid := by
        have hmemf : f0 ∈ db.feedback.filter (fun f => f.submission_id == sid) :=
          List.mem_filter.mpr ⟨hf0, hf0id⟩
        have := List.length_pos.mpr (List.ne_nil_of_mem hmemf)
        unfold feedbackCount
        omega
      unfold feedbackCount at hcnt1 hcount ⊢
      simp only [List.filter_map, List.length_map]
      have hfe : List.filter ((fun f => f.submission_id == sid) ∘ (fun f =>
          if f.submission_id == sid then
            { f with sheet_id := sub.sheet_id, exercise_id := sub.exercise_id,
                     points := some c.points, markdown_content := some c.markdown,
                     pdf_path := c.pdf_path }
          else f)) db.feedback
          = List.filter (fun f => f.submission_id == sid) db.feedback := by
        apply List.filter_congr
        intro f _
        by_cases hf : f.submission_id == sid <;> simp [hf, Function.comp]
      rw [hfe]
      omega
    · rw [if_neg hany]
      have hold : db.feedback.filter (fun f => f.submission_id == sid) = [] := by
        rw [List.filter_eq_nil_iff]
        intro f hf
        exact fun hc => hany (List.any_eq_true.mpr ⟨f, hf, hc⟩)
      unfold feedbackCount
      simp [List.filter_append, hold]
  have hupvals : ∀ f ∈ (save_feedback_upsertFeedback db sub sid c.points c.markdown
      c.pdf_path).feedback, f.submission_id = sid →
      f.points = some c.points ∧ f.markdown_content = some c.markdown ∧
      f.pdf_path = c.pdf_path := by
    unfold save_feedback_upsertFeedback
    intro f hf hfid
    by_cases hany : db.feedback.any (fun f => f.submission_id == sid)
    · rw [if_pos hany] at hf
      simp only [List.mem_map] at hf
      obtain ⟨f0, _, hf0⟩ := hf
      by_cases hmatch : f0.submission_id == sid
      · rw [if_pos hmatch] at hf0
        rw [← hf0]
        exact ⟨rfl, rfl, rfl⟩
      · rw [if_neg hmatch] at hf0
        rw [← hf0] at hfid
        exact absurd (by simp [hfid]) hmatch
    · rw [if_neg hany] at hf
      rcases List.mem_append.mp hf with hf | hf
      · exact absurd (List.any_eq_true.mpr ⟨f, hf, by simp [hfid]⟩) hany
      · simp only [List.mem_singleton] at hf
        rw [hf]
        exact ⟨rfl, rfl, rfl⟩
  refine ⟨_, hred, hupcnt, hupvals, ?_, ?_⟩
  · refine ⟨{ sub with status := c.status }, ?_, ?_⟩
    · have hmem : sub ∈ db.submissions := List.mem_of_find?_eq_some hsub'
      have hpred := List.find?_some hsub'
      show _ ∈ (save_feedback_setStatus _ sid c.status).submissions
      unfold save_feedback_setStatus
      simp only [hupsub]
      apply List.mem_map.mpr
      exact ⟨sub, hmem, by rw [if_pos hpred]⟩
    · have hpred := List.find?_some hsub'
      simpa using (by simpa using hpred : sub.id = sid)
  · intro s hs hsid
    simp only [save_feedback_setStatus, hupsub, List.mem_map] at hs
    obtain ⟨t, _, ht⟩ := hs
    by_cases hmatch : t.id == sid
    · rw [if_pos hmatch] at ht
      rw [← ht]
    · rw [if_neg hmatch] at ht
      rw [← ht] at hsid
      exact absurd (by simp [hsid]) hmatch

/-- C4: for an existing submission id, any non-empty sequence of calls to
save_feedback_with_submission with valid statuses succeeds and leaves exactly
one feedback row for that id, carrying the points, markdown and pdf path of
the last call, and the submission row's status equals the last call's status —
feedback and submission status are in sync after every call. The hypothesis
that at most one feedback row exists beforehand is the invariant the function
itself maintains, it being the single write path that ever inserts feedback. -/
theorem save_feedback_upsert (db : DB) (sid : Nat) (calls : List FeedbackCall)
    (c : FeedbackCall)
    (hsub : ∃ s ∈ db.submissions, s.id = sid)
    (hcount : feedbackCount db sid ≤ 1)
    (hval : ∀ d ∈ calls, validStatus d.status = true)
    (hlast : calls.getLast? = some c) :
    ∃ db1, applyFeedbackCalls db sid calls = .ok db1 ∧
      feedbackCount db1 sid = 1 ∧
      (∀ f ∈ db1.feedback, f.submission_id = sid →
        f.points = some c.points ∧ f.markdown_content = some c.markdown ∧
        f.pdf_path = c.pdf_path) ∧
      (∃ s ∈ db1.submissions, s.id = sid ∧ s.status = c.status) ∧
      (∀ s ∈ db1.submissions, s.id = sid → s.status = c.status) := by
  induction calls generalizing db with
  | nil => exact absurd hlast (by simp)
  | cons d ds ih =>
      obtain ⟨db1, hsave, hcnt1, hvals1, hex1, hall1⟩ :=
        save_feedback_single db sid d ⟨hsub.choose, hsub.choose_spec.1, hsub.choose_spec.2⟩
          (hval d (by simp)) hcount
      have happ : applyFeedbackCalls db sid (d :: ds) = applyFeedbackCalls db1 sid ds := by
        have hcons : applyFeedbackCalls db sid (d :: ds)
            = (save_feedback_with_submission db sid d.status d.points d.markdown
                d.pdf_path).bind (fun dbx => applyFeedbackCalls dbx sid ds) := rfl
        rw [hcons, hsave]
        rfl
      cases ds with
      | nil =>
          have hcd : d = c := by simpa using hlast
          subst hcd
          refine ⟨db1, by rw [happ]; rfl, hcnt1, hvals1, ?_, hall1⟩
          obtain ⟨s, hs, hsid⟩ := hex1
          exact ⟨s, hs, hsid, hall1 s hs hsid⟩
      | cons e es =>
          have hlast' : (e :: es).getLast? = some c := by
            simpa using hlast
          obtain ⟨db2, happ2, hrest⟩ := ih db1 hex1 (by omega)
            (fun x hx => hval x (by simp [hx])) hlast'
          exact ⟨db2, by rw [happ, happ2], hrest⟩

/-- Witness for C4: a submission with id one and no feedback yet, graded
provisionally and then finally; after both calls exactly one feedback row for
the id exists, namely the second call's. -/
theorem save_feedback_upsert_witness :
    validStatus "FINAL_MARK" = true ∧
      (applyFeedbackCalls
          ⟨[⟨1, "Sheet-1"⟩], [⟨1, 1, "exercise-1"⟩],
           [⟨1, "/d/Sheet-1/exercise-1/g_A", "g_A", some "g", 1, some 1, "SUBMITTED"⟩],
           [], 2, 2, 2, 1⟩ 1
          [⟨"PROVISIONAL_MARK", 5, "good", none⟩, ⟨"FINAL_MARK", 8, "better", some "f.pdf"⟩]).toOption.map
        (fun d => feedbackCount d 1) = some 1 := by
  refine ⟨by decide, ?_⟩
  obtain ⟨db1, happly, hcnt, hvals, hex, hall⟩ :=
    save_feedback_upsert
      ⟨[⟨1, "Sheet-1"⟩], [⟨1, 1, "exercise-1"⟩],
       [⟨1, "/d/Sheet-1/exercise-1/g_A", "g_A", some "g", 1, some 1, "SUBMITTED"⟩],
       [], 2, 2, 2, 1⟩ 1
      [⟨"PROVISIONAL_MARK", 5, "good", none⟩, ⟨"FINAL_MARK", 8, "better", some "f.pdf"⟩]
      ⟨"FINAL_MARK", 8, "better", some "f.pdf"⟩
      ⟨⟨1, "/d/Sheet-1/exercise-1/g_A", "g_A", some "g", 1, some 1, "SUBMITTED"⟩,
        by simp, rfl⟩
      (by decide) (by decide) rfl
  rw [happly]
  simp [Except.toOption, hcnt]

theorem map_id_of_mem {α : Type} (l : List α) (f : α → α) (h : ∀ a ∈ l, f a = a) :
    l.map f = l := by
  induction l with
  | nil => rfl
  | cons a as ih => simp [h a (by simp), ih (fun x hx => h x (by simp [hx]))]

theorem scan_eq (db : DB) (fs : FS) :
    scan_and_insert_submissions db fs
      = { (scanState db fs).db with
          submissions := (scanState db fs).db.submissions.filter (scanKeep db fs) } := rfl

theorem processSubmission_frame (snap : List (String × String))
    (marksCsv : Option (List (List String))) (sid eid : Nat) (epath : String)
    (st : ScanState) (child : String × Bool) :
    (processSubmission snap marksCsv sid eid epath st child).db.sheets = st.db.sheets ∧
    (processSubmission snap marksCsv sid eid epath st child).db.exercises
        = st.db.exercises ∧
    (processSubmission snap marksCsv sid eid epath st child).db.feedback
        = st.db.feedback ∧
    (processSubmission snap marksCsv sid eid epath st child).db.next_exercise_id
        = st.db.next_exercise_id ∧
    (processSubmission snap marksCsv sid eid epath st child).discovered
      = st.discovered ++ (if child.2 then [pathJoin epath child.1] else []) := by
  unfold processSubmission
  by_cases h1 : child.2 = true
  · rw [if_pos h1]
    by_cases h2 : st.db.submissions.any (fun s => s.path == pathJoin epath child.1) = true
    · rw [if_pos h2]
      exact ⟨rfl, rfl, rfl, rfl, by rw [if_pos h1]⟩
    · rw [if_neg h2]
      exact ⟨rfl, rfl, rfl, rfl, by rw [if_pos h1]⟩
  · rw [if_neg h1]
    exact ⟨rfl, rfl, rfl, rfl, by rw [if_neg h1]; simp⟩

theorem foldSubmissions_frame (snap : List (String × String))
    (marksCsv : Option (List (List String))) (sid eid : Nat) (epath : String)
    (children : List (String × Bool)) (st : ScanState) :
    (children.foldl (processSubmission snap marksCsv sid eid epath) st).db.sheets
        = st.db.sheets ∧
    (children.foldl (processSubmission snap marksCsv sid eid epath) st).db.exercises
        = st.db.exercises ∧
    (children.foldl (processSubmission snap marksCsv sid eid epath) st).db.feedback
        = st.db.feedback ∧
    (children.foldl (processSubmission snap marksCsv sid eid epath) st).db.next_exercise_id
        = st.db.next_exercise_id ∧
    (children.foldl (processSubmission snap marksCsv sid eid epath) st).discovered
      = st.discovered ++ (children.filter (fun c => c.2)).map (fun c => pathJoin epath c.1) := by
  induction children generalizing st with
  | nil => simp
  | cons c cs ih =>
      simp only [List.foldl_cons]
      obtain ⟨h1, h2, h3, h4, h5⟩ := processSubmission_frame snap marksCsv sid eid epath st c
      obtain ⟨g1, g2, g3, g4, g5⟩ := ih (processSubmission snap marksCsv sid eid epath st c)
      refine ⟨g1.trans h1, g2.trans h2, g3.trans h3, g4.trans h4, ?_⟩
      rw [g5, h5]
      by_cases hc : c.2 <;> simp [hc, List.filter_cons]

theorem resolveExercise_found (sid : Nat) (code : String) (db : DB) (ex : Exercise)
    (h : db.exercises.find? (fun x => x.sheet_id == sid && x.code == code) = some ex) :
    resolveExercise sid code db = (ex.id, db) := by
  unfold resolveExercise
  rw [h]

theorem resolveExercise_spec (sid : Nat) (code : String) (db : DB) :
    (resolveExercise sid code db).2.sheets = db.sheets ∧
    (resolveExercise sid code db).2.submissions = db.submissions ∧
    (resolveExercise sid code db).2.feedback = db.feedback ∧
    (∃ ext, (resolveExercise sid code db).2.exercises = db.exercises ++ ext) ∧
    (∃ ex, (resolveExercise sid code db).2.exercises.find?
        (fun x => x.sheet_id == sid && x.code == code) = some ex ∧
      ex.id = (resolveExercise sid code db).1) := by
  unfold resolveExercise
  cases h : db.exercises.find? (fun x => x.sheet_id == sid && x.code == code) with
  | some ex => exact ⟨rfl, rfl, rfl, ⟨[], by simp⟩, ex, h, rfl⟩
  | none =>
      refine ⟨rfl, rfl, rfl, ⟨_, rfl⟩, ⟨db.next_exercise_id, sid, code⟩, ?_, rfl⟩
      rw [List.find?_append, h]
      simp

theorem resolveSheet_found (name : String) (db : DB) (sh : Sheet)
    (h : db.sheets.find? (fun s => s.name == name) = some sh) :
    resolveSheet name db = (sh.id, db) := by
  unfold resolveSheet
  rw [h]

theorem resolveSheet_spec (name : String) (db : DB) :
    (resolveSheet name db).2.submissions = db.submissions ∧
    (resolveSheet name db).2.exercises = db.exercises ∧
    (resolveSheet name db).2.feedback = db.feedback ∧
    ∃ sh, (resolveSheet name db).2.sheets.find? (fun s => s.name == name) = some sh ∧
      sh.id = (resolveSheet name db).1 := by
  unfold resolveSheet
  cases h : db.sheets.find? (fun s => s.name == name) with
  | some sh => exact ⟨rfl, rfl, rfl, sh, h, rfl⟩
  | none =>
      refine ⟨rfl, rfl, rfl, ⟨db.next_sheet_id, name⟩, ?_, rfl⟩
      rw [List.find?_append, h]
      simp

theorem processEntry_frame (snap : List (String × String))
    (marksCsv : Option (List (List String))) (rootDir : String) (sid : Nat)
    (st : ScanState) (e : FSEntry) :
    (processEntry snap marksCsv rootDir sid st e).db.sheets = st.db.sheets ∧
    (processEntry snap marksCsv rootDir sid st e).db.feedback = st.db.feedback ∧
    (∃ ext, (processEntry snap marksCsv rootDir sid st e).db.exercises
        = st.db.exercises ++ ext) ∧
    (processEntry snap marksCsv rootDir sid st e).discovered = st.discovered ++
      (if e.isDir && isExerciseDir e.name then
        (e.children.filter (fun c => c.2)).map
          (fun c => pathJoin (pathJoin rootDir e.name) c.1)
      else []) := by
  unfold processEntry
  by_cases hok : (e.isDir && isExerciseDir e.name) = true
  · rw [if_pos hok, if_pos hok]
    obtain ⟨r1, r2, r3, ⟨ext, r4⟩, _⟩ := resolveExercise_spec sid e.name st.db
    obtain ⟨f1, f2, f3, f4, f5⟩ := foldSubmissions_frame snap marksCsv sid
      (resolveExercise sid e.name st.db).1 (pathJoin rootDir e.name) e.children
      ⟨(resolveExercise sid e.name st.db).2, st.discovered⟩
    exact ⟨f1.trans r1, f3.trans r3, ⟨ext, f2.trans r4⟩, f5⟩
  · rw [if_neg hok, if_neg hok]
    exact ⟨rfl, rfl, ⟨[], by simp⟩, by simp⟩

theorem scanLoop_frame (snap : List (String × String))
    (marksCsv : Option (List (List String))) (rootDir : String) (sid : Nat)
    (entries : List FSEntry) (st : ScanState) :
    (entries.foldl (processEntry snap marksCsv rootDir sid) st).db.sheets = st.db.sheets ∧
    (entries.foldl (processEntry snap marksCsv rootDir sid) st).db.feedback
        = st.db.feedback ∧
    (∃ ext, (entries.foldl (processEntry snap marksCsv rootDir sid) st).db.exercises
        = st.db.exercises ++ ext) ∧
    (entries.foldl (processEntry snap marksCsv rootDir sid) st).discovered
      = st.discovered ++ discoveredOf rootDir entries := by
  induction entries generalizing st with
  | nil => simp [discoveredOf]
  | cons e es ih =>
      simp only [List.foldl_cons]
      obtain ⟨h1, h2, ⟨ext1, h3⟩, h4⟩ := processEntry_frame snap marksCsv rootDir sid st e
      obtain ⟨g1, g2, ⟨ext2, g3⟩, g4⟩ := ih (processEntry snap marksCsv rootDir sid st e)
      refine ⟨g1.trans h1, g2.trans h2, ⟨ext1 ++ ext2, ?_⟩, ?_⟩
      · rw [g3, h3, List.append_assoc]
      · rw [g4, h4]
        show _ = st.discovered ++ discoveredOf rootDir (e :: es)
        rw [discoveredOf, List.append_assoc]
        rfl

theorem scan_feedback_frame (db : DB) (fs : FS) :
    (scan_and_insert_submissions db fs).feedback = db.feedback := by
  rw [scan_eq]
  obtain ⟨f1, f2, f3, f4⟩ := scanLoop_frame (scanSnap db fs) fs.marksCsv fs.rootDir
    (resolveSheet (basename fs.rootDir) db).1 fs.entries
    ⟨(resolveSheet (basename fs.rootDir) db).2, []⟩
  obtain ⟨r1, r2, r3, _⟩ := resolveSheet_spec (basename fs.rootDir) db
  show (scanState db fs).db.feedback = db.feedback
  exact f2.trans r3

theorem dictLast_no_match (m : List (String × String)) (k : String) (a : Option String)
    (h : ∀ kv ∈ m, kv.1 ≠ k) :
    m.foldl (fun acc kv => if kv.1 = k then some kv.2 else acc) a = a := by
  induction m generalizing a with
  | nil => rfl
  | cons kv m' ih =>
      rw [List.foldl_cons, if_neg (h kv (by simp))]
      exact ih a (fun x hx => h x (by simp [hx]))

theorem dictLast_all_eq (m : List (String × String)) (k v : String) (a : Option String)
    (hall : ∀ kv ∈ m, kv.1 = k → kv.2 = v)
    (hex : ∃ kv ∈ m, kv.1 = k) :
    m.foldl (fun acc kv => if kv.1 = k then some kv.2 else acc) a = some v := by
  induction m generalizing a with
  | nil =>
      obtain ⟨kv, hkv, _⟩ := hex
      cases hkv
  | cons kv m' ih =>
      rw [List.foldl_cons]
      by_cases hk : kv.1 = k
      · rw [if_pos hk]
        by_cases hex' : ∃ x ∈ m', x.1 = k
        · exact ih _ (fun x hx => hall x (by simp [hx])) hex'
        · have hno : ∀ x ∈ m', x.1 ≠ k := fun x hx hxk => hex' ⟨x, hx, hxk⟩
          rw [dictLast_no_match m' k _ hno, hall kv (by simp) hk]
      · rw [if_neg hk]
        obtain ⟨x, hx, hxk⟩ := hex
        rcases List.mem_cons.mp hx with h0 | hx'
        · exact absurd (h0 ▸ hxk) hk
        · exact ih a (fun y hy => hall y (by simp [hy])) ⟨x, hx', hxk⟩

theorem dictLast_statusSnapshot (subs : List Submission) (sid : Nat) (p v : String)
    (hex : ∃ s ∈ subs, s.path = p ∧ s.sheet_id = sid)
    (hall : ∀ s ∈ subs, s.path = p → s.sheet_id = sid ∧ s.status = v) :
    dictLast (statusSnapshot subs sid) p = some v := by
  unfold dictLast statusSnapshot
  apply dictLast_all_eq
  · intro kv hkv hk
    simp only [List.mem_map, List.mem_filter] at hkv
    obtain ⟨s, ⟨hs, _⟩, hkv'⟩ := hkv
    rw [← hkv'] at hk ⊢
    exact (hall s hs hk).2
  · obtain ⟨s, hs, hp, hsid⟩ := hex
    refine ⟨(s.path, s.status), ?_, hp⟩
    simp only [List.mem_map, List.mem_filter]
    exact ⟨s, ⟨hs, by simp [hsid]⟩, rfl⟩

theorem dictLast_statusSnapshot_none (subs : List Submission) (sid : Nat) (p : String)
    (h : ∀ s ∈ subs, s.path ≠ p) :
    dictLast (statusSnapshot subs sid) p = none := by
  unfold dictLast statusSnapshot
  apply dictLast_no_match
  intro kv hkv
  simp only [List.mem_map, List.mem_filter] at hkv
  obtain ⟨s, ⟨hs, _⟩, hkv'⟩ := hkv
  rw [← hkv']
  exact h s hs

theorem pathJoin_right_inj (a x y : String) (h : pathJoin a x = pathJoin a y) : x = y := by
  unfold pathJoin at h
  have hd := congrArg String.data h
  simp only [String.data_append] at hd
  rw [List.append_assoc, List.append_assoc] at hd
  exact String.ext (List.append_cancel_left (List.append_cancel_left hd))

theorem mem_rowsAt (l : List Submission) (p : String) (s : Submission) :
    s ∈ rowsAt l p ↔ s ∈ l ∧ s.path = p := by
  unfold rowsAt
  rw [List.mem_filter]
  simp

theorem rowsAt_filter (keep : Submission → Bool) (l : List Submission) (p : String)
    (h : ∀ s : Submission, s.path = p → keep s = true) :
    rowsAt (l.filter keep) p = rowsAt l p := by
  unfold rowsAt
  induction l with
  | nil => rfl
  | cons s l ih =>
      by_cases hp : (s.path == p) = true
      · have hk : keep s = true := h s (by simpa using hp)
        simp [List.filter_cons, hp, hk, ih]
      · by_cases hk : keep s = true <;> simp [List.filter_cons, hp, hk, ih]

theorem submissionUpdate_id (dirName : String) (submitter : Option String)
    (sid eid : Nat) (status : String) (s : Submission)
    (h1 : s.group_name = dirName) (h2 : s.submitter = submitter) (h3 : s.sheet_id = sid)
    (h4 : s.exercise_id = some eid) (h5 : s.status = status) :
    submissionUpdate dirName submitter sid eid status s = s := by
  unfold submissionUpdate
  cases s
  simp only at h1 h2 h3 h4 h5
  simp [h1, h2, h3, h4, h5]

theorem find?_mono {α : Type} (p : α → Bool) (l ext : List α) (x : α)
    (h : l.find? p = some x) : (l ++ ext).find? p = some x := by
  rw [List.find?_append, h]
  rfl

theorem mem_discoveredOf (rootDir : String) (entries : List FSEntry) (e : FSEntry)
    (c : String × Bool) (he : e ∈ entries) (hok : (e.isDir && isExerciseDir e.name) = true)
    (hc : c ∈ e.children) (hcd : c.2 = true) :
    pathJoin (pathJoin rootDir e.name) c.1 ∈ discoveredOf rootDir entries := by
  induction entries with
  | nil => cases he
  | cons e0 es ih =>
      rw [discoveredOf, List.mem_append]
      rcases List.mem_cons.mp he with h0 | he'
      · subst h0
        left
        unfold entryPaths
        rw [if_pos hok]
        exact List.mem_map.mpr ⟨c, List.mem_filter.mpr ⟨hc, hcd⟩, rfl⟩
      · exact Or.inr (ih he')

theorem rowsAt_map_pathpreserving (l : List Submission) (p : String)
    (g : Submission → Submission) (hg : ∀ s, (g s).path = s.path) :
    rowsAt (l.map g) p = (rowsAt l p).map g := by
  unfold rowsAt
  rw [List.filter_map]
  congr 1
  apply List.filter_congr
  intro s _
  simp [Function.comp, hg s]

theorem processSubmission_rowsAt_other (snap : List (String × String))
    (marksCsv : Option (List (List String))) (sid eid : Nat) (epath : String)
    (st : ScanState) (child : String × Bool) (q : String)
    (hq : child.2 = true → q ≠ pathJoin epath child.1) :
    rowsAt ((processSubmission snap marksCsv sid eid epath st child).db.submissions) q
      = rowsAt st.db.submissions q := by
  unfold processSubmission
  by_cases h1 : child.2 = true
  · have hne : q ≠ pathJoin epath child.1 := hq h1
    rw [if_pos h1]
    by_cases h2 : st.db.submissions.any (fun s => s.path == pathJoin epath child.1) = true
    · rw [if_pos h2]
      show rowsAt (st.db.submissions.map _) q = _
      rw [rowsAt_map_pathpreserving]
      · apply map_id_of_mem
        intro s hs
        have hsq : s.path = q := ((mem_rowsAt _ _ _).mp hs).2
        rw [if_neg (by simp [hsq]; exact hne)]
      · intro s
        by_cases hm : (s.path == pathJoin epath child.1) = true <;>
          simp [hm, submissionUpdate]
    · rw [if_neg h2]
      show rowsAt (st.db.submissions ++ _) q = _
      unfold rowsAt
      rw [List.filter_append]
      have hnil : List.filter (fun s => s.path == q)
          [({ id := st.db.next_submission_id, path := pathJoin epath child.1,
              group_name := child.1,
              submitter := submitterFor marksCsv (submissionIdOf child.1) child.1,
              sheet_id := sid, exercise_id := some eid,
              status := (dictLast snap (pathJoin epath child.1)).getD "SUBMITTED" } :
            Submission)] = [] := by
        simp [Ne.symm hne]
      rw [hnil, List.append_nil]
  · rw [if_neg h1]

theorem processSubmission_mem (snap : List (String × String))
    (marksCsv : Option (List (List String))) (sid eid : Nat) (epath : String)
    (st : ScanState) (child : String × Bool) (s : Submission)
    (hs : s ∈ (processSubmission snap marksCsv sid eid epath st child).db.submissions) :
    s ∈ st.db.submissions ∨ (child.2 = true ∧ s.path = pathJoin epath child.1) := by
  unfold processSubmission at hs
  by_cases h1 : child.2 = true
  · rw [if_pos h1] at hs
    by_cases h2 : st.db.submissions.any (fun s => s.path == pathJoin epath child.1) = true
    · rw [if_pos h2] at hs
      simp only [List.mem_map] at hs
      obtain ⟨t, ht, hts⟩ := hs
      by_cases hm : (t.path == pathJoin epath child.1) = true
      · refine Or.inr ⟨h1, ?_⟩
        rw [← hts, if_pos hm]
        show (submissionUpdate _ _ _ _ _ t).path = _
        simpa [submissionUpdate] using hm
      · left
        rw [← hts, if_neg hm]
        exact ht
    · rw [if_neg h2] at hs
      rcases List.mem_append.mp hs with h | h
      · exact Or.inl h
      · refine Or.inr ⟨h1, ?_⟩
        simp only [List.mem_singleton] at h
        rw [h]
  · rw [if_neg h1] at hs
    exact Or.inl hs

theorem processSubmission_target (snap : List (String × String))
    (marksCsv : Option (List (List String))) (sid eid : Nat) (epath : String)
    (st : ScanState) (child : String × Bool) (hdir : child.2 = true) :
    targetAt ((processSubmission snap marksCsv sid eid epath st child).db.submissions)
      snap marksCsv sid eid epath child.1 := by
  unfold processSubmission
  rw [if_pos hdir]
  by_cases h2 : st.db.submissions.any (fun s => s.path == pathJoin epath child.1) = true
  · rw [if_pos h2]
    obtain ⟨t, ht, htp⟩ := List.any_eq_true.mp h2
    have htmem : t ∈ rowsAt st.db.submissions (pathJoin epath child.1) :=
      (mem_rowsAt _ _ _).mpr ⟨ht, by simpa using htp⟩
    constructor
    · show rowsAt (st.db.submissions.map _) _ ≠ []
      rw [rowsAt_map_pathpreserving]
      · simp only [ne_eq, List.map_eq_nil_iff]
        exact List.ne_nil_of_mem htmem
      · intro s
        by_cases hm : (s.path == pathJoin epath child.1) = true <;>
          simp [hm, submissionUpdate]
    · intro s hs
      rw [rowsAt_map_pathpreserving _ _ _ (fun s => by
          by_cases hm : (s.path == pathJoin epath child.1) = true <;>
            simp [hm, submissionUpdate])] at hs
      obtain ⟨u, hu, hus⟩ := List.mem_map.mp hs
      have hup : u.path = pathJoin epath child.1 := ((mem_rowsAt _ _ _).mp hu).2
      rw [← hus, if_pos (by simp [hup])]
      exact ⟨rfl, rfl, rfl, rfl, rfl⟩
  · rw [if_neg h2]
    have hnil : rowsAt st.db.submissions (pathJoin epath child.1) = [] := by
      unfold rowsAt
      rw [List.filter_eq_nil_iff]
      intro s hsmem hsp
      exact h2 (List.any_eq_true.mpr ⟨s, hsmem, hsp⟩)
    constructor
    · show rowsAt (st.db.submissions ++ _) _ ≠ []
      unfold rowsAt
      rw [List.filter_append]
      unfold rowsAt at hnil
      rw [hnil, List.nil_append]
      simp
    · intro s hs
      rw [mem_rowsAt] at hs
      obtain ⟨hs1, hs2⟩ := hs
      rcases List.mem_append.mp hs1 with h | h
      · exact absurd (List.any_eq_true.mpr ⟨s, h, by simp [hs2]⟩) h2
      · have hseq := List.mem_singleton.mp h
        subst hseq
        exact ⟨rfl, rfl, rfl, rfl, rfl⟩

theorem processSubmission_preserves_target (snap : List (String × String))
    (marksCsv : Option (List (List String))) (sid eid : Nat) (epath : String)
    (st : ScanState) (child : String × Bool) (cname : String)
    (ht : targetAt st.db.submissions snap marksCsv sid eid epath cname) :
    targetAt ((processSubmission snap marksCsv sid eid epath st child).db.submissions)
      snap marksCsv sid eid epath cname := by
  by_cases h1 : child.2 = true
  · by_cases hpq : pathJoin epath cname = pathJoin epath child.1
    · have hcc : cname = child.1 := pathJoin_right_inj _ _ _ hpq
      subst hcc
      exact processSubmission_target snap marksCsv sid eid epath st child h1
    · have hrw := processSubmission_rowsAt_other snap marksCsv sid eid epath st child
        (pathJoin epath cname) (fun _ => hpq)
      unfold targetAt at ht ⊢
      rw [hrw]
      exact ht
  · have hid : processSubmission snap marksCsv sid eid epath st child = st := by
      unfold processSubmission
      rw [if_neg h1]
    rw [hid]
    exact ht

theorem foldSubmissions_preserves_target (snap : List (String × String))
    (marksCsv : Option (List (List String))) (sid eid : Nat) (epath : String)
    (children : List (String × Bool)) (st : ScanState) (cname : String)
    (ht : targetAt st.db.submissions snap marksCsv sid eid epath cname) :
    targetAt ((children.foldl (processSubmission snap marksCsv sid eid epath) st).db.submissions)
      snap marksCsv sid eid epath cname := by
  induction children generalizing st with
  | nil => exact ht
  | cons c cs ih =>
      rw [List.foldl_cons]
      exact ih _ (processSubmission_preserves_target snap marksCsv sid eid epath st c cname ht)

theorem foldSubmissions_target (snap : List (String × String))
    (marksCsv : Option (List (List String))) (sid eid : Nat) (epath : String)
    (children : List (String × Bool)) (st : ScanState) (c : String × Bool)
    (hc : c ∈ children) (hdir : c.2 = true) :
    targetAt ((children.foldl (processSubmission snap marksCsv sid eid epath) st).db.submissions)
      snap marksCsv sid eid epath c.1 := by
  induction children generalizing st with
  | nil => cases hc
  | cons c0 cs ih =>
      rw [List.foldl_cons]
      rcases List.mem_cons.mp hc with h0 | hcs
      · subst h0
        exact foldSubmissions_preserves_target snap marksCsv sid eid epath cs _ c.1
          (processSubmission_target snap marksCsv sid eid epath st c hdir)
      · exact ih _ hcs

theorem foldSubmissions_mem (snap : List (String × String))
    (marksCsv : Option (List (List String))) (sid eid : Nat) (epath : String)
    (children : List (String × Bool)) (st : ScanState) (s : Submission)
    (hs : s ∈ (children.foldl (processSubmission snap marksCsv sid eid epath) st).db.submissions) :
    s ∈ st.db.submissions ∨
      s.path ∈ (children.filter (fun c => c.2)).map (fun c => pathJoin epath c.1) := by
  induction children generalizing st with
  | nil => exact Or.inl hs
  | cons c cs ih =>
      rw [List.foldl_cons] at hs
      rcases ih _ hs with h | h
      · rcases processSubmission_mem snap marksCsv sid eid epath st c s h with h' | h'
        · exact Or.inl h'
        · right
          rw [List.filter_cons, if_pos h'.1]
          exact List.mem_map.mpr ⟨c, by simp, h'.2.symm⟩
      · right
        rw [List.filter_cons]
        by_cases hc2 : c.2 = true
        · rw [if_pos hc2, List.map_cons]
          exact List.mem_cons.mpr (Or.inr h)
        · rw [if_neg hc2]
          exact h

theorem foldSubmissions_rowsAt_other (snap : List (String × String))
    (marksCsv : Option (List (List String))) (sid eid : Nat) (epath : String)
    (children : List (String × Bool)) (st : ScanState) (q : String)
    (hq : ∀ c ∈ children, c.2 = true → q ≠ pathJoin epath c.1) :
    rowsAt ((children.foldl (processSubmission snap marksCsv sid eid epath) st).db.submissions) q
      = rowsAt st.db.submissions q := by
  induction children generalizing st with
  | nil => rfl
  | cons c cs ih =>
      rw [List.foldl_cons]
      rw [ih _ (fun x hx => hq x (by simp [hx]))]
      exact processSubmission_rowsAt_other snap marksCsv sid eid epath st c q
        (fun h => hq c (by simp) h)

theorem processEntry_rowsAt_other (snap : List (String × String))
    (marksCsv : Option (List (List String))) (rootDir : String) (sid : Nat)
    (st : ScanState) (e : FSEntry) (q : String)
    (hq : ∀ c ∈ e.children, c.2 = true → q ≠ pathJoin (pathJoin rootDir e.name) c.1) :
    rowsAt ((processEntry snap marksCsv rootDir sid st e).db.submissions) q
      = rowsAt st.db.submissions q := by
  unfold processEntry
  by_cases hok : (e.isDir && isExerciseDir e.name) = true
  · rw [if_pos hok]
    have h1 := foldSubmissions_rowsAt_other snap marksCsv sid
      (resolveExercise sid e.name st.db).1 (pathJoin rootDir e.name) e.children
      ⟨(resolveExercise sid e.name st.db).2, st.discovered⟩ q hq
    rw [h1]
    show rowsAt (resolveExercise sid e.name st.db).2.submissions q = _
    rw [(resolveExercise_spec sid e.name st.db).2.1]
  · rw [if_neg hok]

theorem processEntry_mem (snap : List (String × String))
    (marksCsv : Option (List (List String))) (rootDir : String) (sid : Nat)
    (st : ScanState) (e : FSEntry) (s : Submission)
    (hs : s ∈ (processEntry snap marksCsv rootDir sid st e).db.submissions) :
    s ∈ st.db.submissions ∨ s.path ∈ entryPaths rootDir e := by
  unfold processEntry at hs
  by_cases hok : (e.isDir && isExerciseDir e.name) = true
  · rw [if_pos hok] at hs
    rcases foldSubmissions_mem snap marksCsv sid (resolveExercise sid e.name st.db).1
        (pathJoin rootDir e.name) e.children
        ⟨(resolveExercise sid e.name st.db).2, st.discovered⟩ s hs with h | h
    · left
      have h2 : s ∈ (resolveExercise sid e.name st.db).2.submissions := h
      rw [(resolveExercise_spec sid e.name st.db).2.1] at h2
      exact h2
    · right
      unfold entryPaths
      rw [if_pos hok]
      exact h
  · rw [if_neg hok] at hs
    exact Or.inl hs

theorem processEntry_entryTarget (snap : List (String × String))
    (marksCsv : Option (List (List String))) (rootDir : String) (sid : Nat)
    (st : ScanState) (e : FSEntry)
    (hok : (e.isDir && isExerciseDir e.name) = true) :
    entryTarget ((processEntry snap marksCsv rootDir sid st e).db.submissions)
      ((processEntry snap marksCsv rootDir sid st e).db.exercises)
      snap marksCsv rootDir sid e := by
  unfold processEntry
  rw [if_pos hok]
  obtain ⟨_, _, _, _, ⟨ex, hexfind, hexid⟩⟩ := resolveExercise_spec sid e.name st.db
  obtain ⟨_, f2, _, _, _⟩ := foldSubmissions_frame snap marksCsv sid
    (resolveExercise sid e.name st.db).1 (pathJoin rootDir e.name) e.children
    ⟨(resolveExercise sid e.name st.db).2, st.discovered⟩
  refine ⟨ex, ?_, ?_⟩
  · rw [f2]
    exact hexfind
  · intro c hc hcd
    rw [hexid]
    exact foldSubmissions_target snap marksCsv sid (resolveExercise sid e.name st.db).1
      (pathJoin rootDir e.name) e.children
      ⟨(resolveExercise sid e.name st.db).2, st.discovered⟩ c hc hcd

theorem processEntry_preserves_entryTarget (snap : List (String × String))
    (marksCsv : Option (List (List String))) (rootDir : String) (sid : Nat)
    (st : ScanState) (e0 e1 : FSEntry)
    (hok0 : (e0.isDir && isExerciseDir e0.name) = true)
    (ht : entryTarget st.db.submissions st.db.exercises snap marksCsv rootDir sid e0)
    (hdisj : ∀ q ∈ entryPaths rootDir e0, q ∉ entryPaths rootDir e1) :
    entryTarget ((processEntry snap marksCsv rootDir sid st e1).db.submissions)
      ((processEntry snap marksCsv rootDir sid st e1).db.exercises)
      snap marksCsv rootDir sid e0 := by
  obtain ⟨ex, hfind, hall⟩ := ht
  by_cases hok1 : (e1.isDir && isExerciseDir e1.name) = true
  · obtain ⟨_, _, ⟨ext, hex⟩, _⟩ := processEntry_frame snap marksCsv rootDir sid st e1
    refine ⟨ex, ?_, ?_⟩
    · rw [hex]
      exact find?_mono _ _ _ _ hfind
    · intro c hc hcd
      have hqmem : pathJoin (pathJoin rootDir e0.name) c.1 ∈ entryPaths rootDir e0 := by
        unfold entryPaths
        rw [if_pos hok0]
        exact List.mem_map.mpr ⟨c, List.mem_filter.mpr ⟨hc, hcd⟩, rfl⟩
      have hq : ∀ c1 ∈ e1.children, c1.2 = true →
          pathJoin (pathJoin rootDir e0.name) c.1 ≠ pathJoin (pathJoin rootDir e1.name) c1.1 := by
        intro c1 hc1 hc1d heq
        apply hdisj _ hqmem
        unfold entryPaths
        rw [if_pos hok1]
        exact heq ▸ List.mem_map.mpr ⟨c1, List.mem_filter.mpr ⟨hc1, hc1d⟩, rfl⟩
      have hrw := processEntry_rowsAt_other snap marksCsv rootDir sid st e1 _ hq
      have htc := hall c hc hcd
      unfold targetAt at htc ⊢
      rw [hrw]
      exact htc
  · have hid : processEntry snap marksCsv rootDir sid st e1 = st := by
      unfold processEntry
      rw [if_neg hok1]
    rw [hid]
    exact ⟨ex, hfind, hall⟩

theorem scanLoop_preserves_entryTarget (snap : List (String × String))
    (marksCsv : Option (List (List String))) (rootDir : String) (sid : Nat)
    (es : List FSEntry) (st : ScanState) (e0 : FSEntry)
    (hok0 : (e0.isDir && isExerciseDir e0.name) = true)
    (ht : entryTarget st.db.submissions st.db.exercises snap marksCsv rootDir sid e0)
    (hdisj : ∀ q ∈ entryPaths rootDir e0, q ∉ discoveredOf rootDir es) :
    entryTarget ((es.foldl (processEntry snap marksCsv rootDir sid) st).db.submissions)
      ((es.foldl (processEntry snap marksCsv rootDir sid) st).db.exercises)
      snap marksCsv rootDir sid e0 := by
  induction es generalizing st with
  | nil => exact ht
  | cons e1 es' ih =>
      rw [List.foldl_cons]
      refine ih _
        (processEntry_preserves_entryTarget snap marksCsv rootDir sid st e0 e1 hok0 ht
          (fun q hq hmem => hdisj q hq (by rw [discoveredOf, List.mem_append]; exact Or.inl hmem)))
        (fun q hq hmem => hdisj q hq ?_)
      rw [discoveredOf, List.mem_append]
      exact Or.inr hmem

theorem scanLoop_characterization (snap : List (String × String))
    (marksCsv : Option (List (List String))) (rootDir : String) (sid : Nat)
    (entries : List FSEntry) (st0 : ScanState)
    (hN : (discoveredOf rootDir entries).Nodup) :
    (∀ s ∈ (entries.foldl (processEntry snap marksCsv rootDir sid) st0).db.submissions,
        s ∈ st0.db.submissions ∨ s.path ∈ discoveredOf rootDir entries) ∧
    (∀ e ∈ entries, (e.isDir && isExerciseDir e.name) = true →
      entryTarget ((entries.foldl (processEntry snap marksCsv rootDir sid) st0).db.submissions)
        ((entries.foldl (processEntry snap marksCsv rootDir sid) st0).db.exercises)
        snap marksCsv rootDir sid e) := by
  induction entries generalizing st0 with
  | nil =>
      exact ⟨fun s hs => Or.inl hs, fun e he => absurd he (List.not_mem_nil e)⟩
  | cons e es ih =>
      rw [discoveredOf] at hN
      have hNes : (discoveredOf rootDir es).Nodup := (List.nodup_append.mp hN).2.1
      have hdisjN : ∀ q ∈ entryPaths rootDir e, q ∉ discoveredOf rootDir es :=
        fun q hq hmem => (List.nodup_append.mp hN).2.2 hq hmem
      obtain ⟨ihD, ihE⟩ := ih (processEntry snap marksCsv rootDir sid st0 e) hNes
      rw [List.foldl_cons]
      constructor
      · intro s hs
        rcases ihD s hs with h | h
        · rcases processEntry_mem snap marksCsv rootDir sid st0 e s h with h' | h'
          · exact Or.inl h'
          · right
            rw [discoveredOf, List.mem_append]
            exact Or.inl h'
        · right
          rw [discoveredOf, List.mem_append]
          exact Or.inr h
      · intro e' he' hok'
        rcases List.mem_cons.mp he' with h0 | he''
        · subst h0
          exact scanLoop_preserves_entryTarget snap marksCsv rootDir sid es _ e' hok'
            (processEntry_entryTarget snap marksCsv rootDir sid st0 e' hok') hdisjN
        · exact ihE e' he'' hok'

theorem contains_iff_mem (l : List String) (a : String) : l.contains a = true ↔ a ∈ l :=
  List.elem_iff

theorem mem_snapPaths (subs : List Submission) (sid : Nat) (p : String) :
    p ∈ (statusSnapshot subs sid).map Prod.fst ↔
      ∃ s ∈ subs, s.sheet_id = sid ∧ s.path = p := by
  unfold statusSnapshot
  rw [List.map_map, List.mem_map]
  constructor
  · rintro ⟨s, hs, hp⟩
    have hmem := List.mem_filter.mp hs
    exact ⟨s, hmem.1, by simpa using hmem.2, hp⟩
  · rintro ⟨s, hs, hsid, hp⟩
    exact ⟨s, List.mem_filter.mpr ⟨hs, by simpa using hsid⟩, hp⟩

theorem scanState_discovered (db : DB) (fs : FS) :
    (scanState db fs).discovered = discoveredOf fs.rootDir fs.entries := by
  have h := (scanLoop_frame (scanSnap db fs) fs.marksCsv fs.rootDir
    (resolveSheet (basename fs.rootDir) db).1 fs.entries
    ⟨(resolveSheet (basename fs.rootDir) db).2, []⟩).2.2.2
  unfold scanState
  simpa using h

theorem scanSnap_eq (db : DB) (fs : FS) :
    scanSnap db fs = statusSnapshot db.submissions (resolvedSheetId db fs) := by
  unfold scanSnap resolvedSheetId
  rw [(resolveSheet_spec (basename fs.rootDir) db).1]

theorem scanKeep_iff (db : DB) (fs : FS) (s : Submission) :
    scanKeep db fs s = true ↔
      (s.path ∈ (scanSnap db fs).map Prod.fst →
        s.path ∈ discoveredOf fs.rootDir fs.entries) := by
  unfold scanKeep
  rw [scanState_discovered]
  rw [← contains_iff_mem ((scanSnap db fs).map Prod.fst) s.path,
      ← contains_iff_mem (discoveredOf fs.rootDir fs.entries) s.path]
  cases ((scanSnap db fs).map Prod.fst).contains s.path <;>
    cases (discoveredOf fs.rootDir fs.entries).contains s.path <;> simp

theorem processSubmission_noop (snap : List (String × String))
    (marksCsv : Option (List (List String))) (sid eid : Nat) (epath : String)
    (st : ScanState) (child : String × Bool) (hcd : child.2 = true)
    (ht : targetAt st.db.submissions snap marksCsv sid eid epath child.1) :
    processSubmission snap marksCsv sid eid epath st child
      = { db := st.db, discovered := st.discovered ++ [pathJoin epath child.1] } := by
  obtain ⟨hne, hall⟩ := ht
  unfold processSubmission
  rw [if_pos hcd]
  obtain ⟨r, hr⟩ := List.exists_mem_of_ne_nil _ hne
  obtain ⟨hrmem, hrpath⟩ := (mem_rowsAt _ _ _).mp hr
  have hany : st.db.submissions.any (fun s => s.path == pathJoin epath child.1) = true :=
    List.any_eq_true.mpr ⟨r, hrmem, by simp [hrpath]⟩
  rw [if_pos hany]
  have hmap : st.db.submissions.map (fun s =>
      if s.path == pathJoin epath child.1
      then submissionUpdate child.1 (submitterFor marksCsv (submissionIdOf child.1) child.1)
             sid eid ((dictLast snap (pathJoin epath child.1)).getD "SUBMITTED") s
      else s) = st.db.submissions := by
    apply map_id_of_mem
    intro s hs
    by_cases hp : (s.path == pathJoin epath child.1) = true
    · rw [if_pos hp]
      obtain ⟨h1, h2, h3, h4, h5⟩ := hall s ((mem_rowsAt _ _ _).mpr ⟨hs, by simpa using hp⟩)
      exact submissionUpdate_id _ _ _ _ _ _ h1 h2 h3 h4 h5
    · rw [if_neg hp]
  rw [hmap]

theorem foldSubmissions_noop (snap : List (String × String))
    (marksCsv : Option (List (List String))) (sid eid : Nat) (epath : String)
    (children : List (String × Bool)) (st : ScanState)
    (hall : ∀ c ∈ children, c.2 = true →
      targetAt st.db.submissions snap marksCsv sid eid epath c.1) :
    (children.foldl (processSubmission snap marksCsv sid eid epath) st).db = st.db := by
  induction children generalizing st with
  | nil => rfl
  | cons c cs ih =>
      rw [List.foldl_cons]
      by_cases hcd : c.2 = true
      · have hstep := processSubmission_noop snap marksCsv sid eid epath st c hcd
          (hall c (by simp) hcd)
        rw [hstep]
        exact ih _ (fun c1 hc1 hcd1 => hall c1 (by simp [hc1]) hcd1)
      · have hstep : processSubmission snap marksCsv sid eid epath st c = st := by
          unfold processSubmission
          rw [if_neg hcd]
        rw [hstep]
        exact ih _ (fun c1 hc1 hcd1 => hall c1 (by simp [hc1]) hcd1)

theorem processEntry_noop (snap : List (String × String))
    (marksCsv : Option (List (List String))) (rootDir : String) (sid : Nat)
    (st : ScanState) (e : FSEntry)
    (ht : entryTarget st.db.submissions st.db.exercises snap marksCsv rootDir sid e) :
    (processEntry snap marksCsv rootDir sid st e).db = st.db := by
  by_cases hok : (e.isDir && isExerciseDir e.name) = true
  · obtain ⟨ex, hfind, hall⟩ := ht
    unfold processEntry
    rw [if_pos hok, resolveExercise_found sid e.name st.db ex hfind]
    exact foldSubmissions_noop snap marksCsv sid ex.id (pathJoin rootDir e.name)
      e.children ⟨st.db, st.discovered⟩ (fun c hc hcd => hall c hc hcd)
  · unfold processEntry
    rw [if_neg hok]

theorem scanLoop_noop (snap : List (String × String))
    (marksCsv : Option (List (List String))) (rootDir : String) (sid : Nat)
    (entries : List FSEntry) (st : ScanState)
    (hall : ∀ e ∈ entries, (e.isDir && isExerciseDir e.name) = true →
      entryTarget st.db.submissions st.db.exercises snap marksCsv rootDir sid e) :
    (entries.foldl (processEntry snap marksCsv rootDir sid) st).db = st.db := by
  induction entries generalizing st with
  | nil => rfl
  | cons e es ih =>
      rw [List.foldl_cons]
      have hdb : (processEntry snap marksCsv rootDir sid st e).db = st.db := by
        by_cases hok : (e.isDir && isExerciseDir e.name) = true
        · exact processEntry_noop snap marksCsv rootDir sid st e (hall e (by simp) hok)
        · unfold processEntry
          rw [if_neg hok]
      have hrest := ih (processEntry snap marksCsv rootDir sid st e)
        (fun e1 he1 hok1 => by rw [hdb]; exact hall e1 (by simp [he1]) hok1)
      rw [hrest, hdb]

theorem dictLast_statusSnapshot_of_target (subs : List Submission) (sid : Nat)
    (p v : String) (hne : rowsAt subs p ≠ [])
    (hall : ∀ s ∈ rowsAt subs p, s.sheet_id = sid ∧ s.status = v) :
    dictLast (statusSnapshot subs sid) p = some v := by
  apply dictLast_statusSnapshot
  · obtain ⟨r, hr⟩ := List.exists_mem_of_ne_nil _ hne
    obtain ⟨hrm, hrp⟩ := (mem_rowsAt _ _ _).mp hr
    exact ⟨r, hrm, hrp, (hall r hr).1⟩
  · intro s hs hsp
    exact hall s ((mem_rowsAt _ _ _).mpr ⟨hs, hsp⟩)

theorem targetAt_resnap (subs : List Submission) (snap : List (String × String))
    (marksCsv : Option (List (List String))) (sid eid : Nat) (epath cname : String)
    (ht : targetAt subs snap marksCsv sid eid epath cname) :
    targetAt subs (statusSnapshot subs sid) marksCsv sid eid epath cname := by
  obtain ⟨hne, hall⟩ := ht
  have hd : dictLast (statusSnapshot subs sid) (pathJoin epath cname)
      = some ((dictLast snap (pathJoin epath cname)).getD "SUBMITTED") := by
    apply dictLast_statusSnapshot_of_target subs sid _ _ hne
    intro s hs
    obtain ⟨_, _, h3, _, h5⟩ := hall s hs
    exact ⟨h3, h5⟩
  refine ⟨hne, fun s hs => ?_⟩
  obtain ⟨h1, h2, h3, h4, h5⟩ := hall s hs
  refine ⟨h1, h2, h3, h4, ?_⟩
  rw [hd]
  exact h5

theorem entryTarget_resnap (subs : List Submission) (exs : List Exercise)
    (snap : List (String × String)) (marksCsv : Option (List (List String)))
    (rootDir : String) (sid : Nat) (e : FSEntry)
    (ht : entryTarget subs exs snap marksCsv rootDir sid e) :
    entryTarget subs exs (statusSnapshot subs sid) marksCsv rootDir sid e := by
  obtain ⟨ex, hfind, hall⟩ := ht
  exact ⟨ex, hfind, fun c hc hcd => targetAt_resnap _ _ _ _ _ _ _ (hall c hc hcd)⟩

theorem scan_entryTarget (db : DB) (fs : FS)
    (hN : (discoveredOf fs.rootDir fs.entries).Nodup)
    (e : FSEntry) (he : e ∈ fs.entries)
    (hok : (e.isDir && isExerciseDir e.name) = true) :
    entryTarget (scan_and_insert_submissions db fs).submissions
      (scan_and_insert_submissions db fs).exercises
      (scanSnap db fs) fs.marksCsv fs.rootDir (resolvedSheetId db fs) e := by
  obtain ⟨ex, hfind, hall⟩ := (scanLoop_characterization (scanSnap db fs) fs.marksCsv
    fs.rootDir (resolveSheet (basename fs.rootDir) db).1 fs.entries
    ⟨(resolveSheet (basename fs.rootDir) db).2, []⟩ hN).2 e he hok
  have hexs : (scan_and_insert_submissions db fs).exercises
      = (scanState db fs).db.exercises := by rw [scan_eq]
  have hsubs : (scan_and_insert_submissions db fs).submissions
      = (scanState db fs).db.submissions.filter (scanKeep db fs) := by rw [scan_eq]
  refine ⟨ex, ?_, ?_⟩
  · rw [hexs]
    exact hfind
  · intro c hc hcd
    obtain ⟨hne, hrows⟩ := hall c hc hcd
    have hpd : pathJoin (pathJoin fs.rootDir e.name) c.1
        ∈ discoveredOf fs.rootDir fs.entries :=
      mem_discoveredOf fs.rootDir fs.entries e c he hok hc hcd
    have hkeep : ∀ s : Submission, s.path = pathJoin (pathJoin fs.rootDir e.name) c.1 →
        scanKeep db fs s = true := by
      intro s hsp
      apply (scanKeep_iff db fs s).mpr
      intro _
      rw [hsp]
      exact hpd
    have hrw : rowsAt ((scan_and_insert_submissions db fs).submissions)
        (pathJoin (pathJoin fs.rootDir e.name) c.1)
        = rowsAt ((scanState db fs).db.submissions)
            (pathJoin (pathJoin fs.rootDir e.name) c.1) := by
      rw [hsubs]
      exact rowsAt_filter _ _ _ hkeep
    unfold targetAt
    rw [hrw]
    exact ⟨hne, hrows⟩

/-- C1: Reconciler idempotence — running scan_and_insert_submissions a second
time on an unchanged filesystem (whose listing, as on a real directory tree,
yields pairwise distinct submission paths) leaves the submission rows exactly
as the first run left them: same rows, same ids, same statuses, same count. -/
theorem scan_idempotent (db : DB) (fs : FS)
    (hN : (discoveredOf fs.rootDir fs.entries).Nodup) :
    (scan_and_insert_submissions (scan_and_insert_submissions db fs) fs).submissions
      = (scan_and_insert_submissions db fs).submissions := by
  obtain ⟨hsubs0, hexs0, hfb0, sh, hshfind, hshid⟩ :=
    resolveSheet_spec (basename fs.rootDir) db
  have hsheets1 : (scan_and_insert_submissions db fs).sheets
      = (resolveSheet (basename fs.rootDir) db).2.sheets := by
    rw [scan_eq]
    exact (scanLoop_frame (scanSnap db fs) fs.marksCsv fs.rootDir
      (resolveSheet (basename fs.rootDir) db).1 fs.entries
      ⟨(resolveSheet (basename fs.rootDir) db).2, []⟩).1
  have hfind1 : (scan_and_insert_submissions db fs).sheets.find?
      (fun s => s.name == basename fs.rootDir) = some sh := by
    rw [hsheets1]
    exact hshfind
  have hres2 : resolveSheet (basename fs.rootDir) (scan_and_insert_submissions db fs)
      = (sh.id, scan_and_insert_submissions db fs) :=
    resolveSheet_found (basename fs.rootDir) (scan_and_insert_submissions db fs) sh hfind1
  have hsnap2 : scanSnap (scan_and_insert_submissions db fs) fs
      = statusSnapshot (scan_and_insert_submissions db fs).submissions sh.id := by
    unfold scanSnap
    rw [hres2]
  have hET : ∀ e ∈ fs.entries, (e.isDir && isExerciseDir e.name) = true →
      entryTarget (scan_and_insert_submissions db fs).submissions
        (scan_and_insert_submissions db fs).exercises
        (statusSnapshot (scan_and_insert_submissions db fs).submissions sh.id)
        fs.marksCsv fs.rootDir sh.id e := by
    intro e he hok
    rw [hshid]
    exact entryTarget_resnap _ _ _ _ _ _ _ (scan_entryTarget db fs hN e he hok)
  have hall2 : ∀ e ∈ fs.entries, (e.isDir && isExerciseDir e.name) = true →
      entryTarget ((⟨(resolveSheet (basename fs.rootDir)
            (scan_and_insert_submissions db fs)).2, []⟩ : ScanState)).db.submissions
        ((⟨(resolveSheet (basename fs.rootDir)
            (scan_and_insert_submissions db fs)).2, []⟩ : ScanState)).db.exercises
        (scanSnap (scan_and_insert_submissions db fs) fs) fs.marksCsv fs.rootDir
        (resolveSheet (basename fs.rootDir) (scan_and_insert_submissions db fs)).1 e := by
    intro e he hok
    rw [hres2, hsnap2]
    exact hET e he hok
  have hstate2 : (scanState (scan_and_insert_submissions db fs) fs).db
      = scan_and_insert_submissions db fs := by
    have hx := scanLoop_noop (scanSnap (scan_and_insert_submissions db fs) fs) fs.marksCsv
      fs.rootDir
      (resolveSheet (basename fs.rootDir) (scan_and_insert_submissions db fs)).1
      fs.entries
      ⟨(resolveSheet (basename fs.rootDir) (scan_and_insert_submissions db fs)).2, []⟩
      hall2
    calc (scanState (scan_and_insert_submissions db fs) fs).db
        = (resolveSheet (basename fs.rootDir) (scan_and_insert_submissions db fs)).2 := hx
      _ = scan_and_insert_submissions db fs := by rw [hres2]
  have hkeep2 : ∀ s ∈ (scan_and_insert_submissions db fs).submissions,
      scanKeep (scan_and_insert_submissions db fs) fs s = true := by
    intro s hs
    apply (scanKeep_iff _ fs s).mpr
    intro hmem
    by_contra hnd
    have heq1 : (scan_and_insert_submissions db fs).submissions
        = (scanState db fs).db.submissions.filter (scanKeep db fs) := by rw [scan_eq]
    have hs' : s ∈ (scanState db fs).db.submissions ∧ scanKeep db fs s = true := by
      rw [heq1] at hs
      exact ⟨(List.mem_filter.mp hs).1, (List.mem_filter.mp hs).2⟩
    rw [hsnap2] at hmem
    obtain ⟨r, hrmem, hrsheet, hrpath⟩ := (mem_snapPaths _ _ _).mp hmem
    have hr' : r ∈ (scanState db fs).db.submissions ∧ scanKeep db fs r = true := by
      rw [heq1] at hrmem
      exact ⟨(List.mem_filter.mp hrmem).1, (List.mem_filter.mp hrmem).2⟩
    have hrD : r ∈ (resolveSheet (basename fs.rootDir) db).2.submissions ∨
        r.path ∈ discoveredOf fs.rootDir fs.entries :=
      (scanLoop_characterization (scanSnap db fs) fs.marksCsv fs.rootDir
        (resolveSheet (basename fs.rootDir) db).1 fs.entries
        ⟨(resolveSheet (basename fs.rootDir) db).2, []⟩ hN).1 r hr'.1
    rcases hrD with hr0 | hrdisc
    · have hrs1 : r.path ∈ (scanSnap db fs).map Prod.fst := by
        apply (mem_snapPaths (resolveSheet (basename fs.rootDir) db).2.submissions
          (resolveSheet (basename fs.rootDir) db).1 r.path).mpr
        refine ⟨r, hr0, ?_, rfl⟩
        rw [hrsheet]
        exact hshid
      have hrd : r.path ∈ discoveredOf fs.rootDir fs.entries :=
        (scanKeep_iff db fs r).mp hr'.2 hrs1
      rw [hrpath] at hrd
      exact hnd hrd
    · rw [hrpath] at hrdisc
      exact hnd hrdisc
  calc (scan_and_insert_submissions (scan_and_insert_submissions db fs) fs).submissions
      = (scanState (scan_and_insert_submissions db fs) fs).db.submissions.filter
          (scanKeep (scan_and_insert_submissions db fs) fs) := by
        rw [scan_eq (scan_and_insert_submissions db fs) fs]
    _ = (scan_and_insert_submissions db fs).submissions.filter
          (scanKeep (scan_and_insert_submissions db fs) fs) := by rw [hstate2]
    _ = (scan_and_insert_submissions db fs).submissions := List.filter_eq_self.mpr hkeep2

theorem scan_idempotent_witness :
    (scan_and_insert_submissions (scan_and_insert_submissions dbScanIdem fsScanIdem)
        fsScanIdem).submissions
      = (scan_and_insert_submissions dbScanIdem fsScanIdem).submissions :=
  scan_idempotent dbScanIdem fsScanIdem (by decide)

/-- C2: Progress preservation — after a scan of a filesystem with pairwise
distinct submission paths, every discovered submission directory has at least
one row, every row at its path carries the directory name as group_name, the
names-dict submitter, a non-NULL exercise id, and a status equal to the value
snapshotted for that path from the resolved sheet's rows before the scan (so
FINAL_MARK is never regressed by a rescan), or SUBMITTED when the path was
not snapshotted (the freshly inserted row's default). -/
theorem scan_preserves_progress (db : DB) (fs : FS) (e : FSEntry) (c : String × Bool)
    (hN : (discoveredOf fs.rootDir fs.entries).Nodup)
    (he : e ∈ fs.entries) (hok : (e.isDir && isExerciseDir e.name) = true)
    (hc : c ∈ e.children) (hcd : c.2 = true) :
    rowsAt (scan_and_insert_submissions db fs).submissions
        (pathJoin (pathJoin fs.rootDir e.name) c.1) ≠ [] ∧
    ∀ s ∈ rowsAt (scan_and_insert_submissions db fs).submissions
        (pathJoin (pathJoin fs.rootDir e.name) c.1),
      s.group_name = c.1 ∧
      s.submitter = submitterFor fs.marksCsv (submissionIdOf c.1) c.1 ∧
      s.exercise_id.isSome = true ∧
      (∀ v, dictLast (statusSnapshot db.submissions (resolvedSheetId db fs))
          (pathJoin (pathJoin fs.rootDir e.name) c.1) = some v → s.status = v) ∧
      (dictLast (statusSnapshot db.submissions (resolvedSheetId db fs))
          (pathJoin (pathJoin fs.rootDir e.name) c.1) = none →
        s.status = "SUBMITTED") := by
  obtain ⟨ex, hfind, hall⟩ := scan_entryTarget db fs hN e he hok
  obtain ⟨hne, hrows⟩ := hall c hc hcd
  refine ⟨hne, fun s hs => ?_⟩
  obtain ⟨h1, h2, h3, h4, h5⟩ := hrows s hs
  have hsnap : scanSnap db fs = statusSnapshot db.submissions (resolvedSheetId db fs) :=
    scanSnap_eq db fs
  refine ⟨h1, h2, by rw [h4]; rfl, ?_, ?_⟩
  · intro v hv
    rw [h5, hsnap, hv, Option.getD_some]
  · intro hv
    rw [h5, hsnap, hv, Option.getD_none]

theorem scan_preserves_progress_witness :
    rowsAt (scan_and_insert_submissions dbScanIdem fsScanIdem).submissions
        (pathJoin (pathJoin fsScanIdem.rootDir "exercise-1") "grp_a1") ≠ [] ∧
    ∀ s ∈ rowsAt (scan_and_insert_submissions dbScanIdem fsScanIdem).submissions
        (pathJoin (pathJoin fsScanIdem.rootDir "exercise-1") "grp_a1"),
      s.group_name = "grp_a1" ∧
      s.submitter = submitterFor fsScanIdem.marksCsv (submissionIdOf "grp_a1") "grp_a1" ∧
      s.exercise_id.isSome = true ∧
      (∀ v, dictLast (statusSnapshot dbScanIdem.submissions
          (resolvedSheetId dbScanIdem fsScanIdem))
          (pathJoin (pathJoin fsScanIdem.rootDir "exercise-1") "grp_a1") = some v →
        s.status = v) ∧
      (dictLast (statusSnapshot dbScanIdem.submissions
          (resolvedSheetId dbScanIdem fsScanIdem))
          (pathJoin (pathJoin fsScanIdem.rootDir "exercise-1") "grp_a1") = none →
        s.status = "SUBMITTED") :=
  scan_preserves_progress dbScanIdem fsScanIdem
    ⟨"exercise-1", true, [("grp_a1", true), ("grp_b2", true)]⟩ ("grp_a1", true)
    (by decide) (by decide) (by decide) (by decide) (by decide)

/-- C3: the obsolete-pruning DELETE names only the submissions table and the
connection never enables SQLite foreign-key enforcement, so nothing cascades:
the feedback table is unchanged by every scan, and in particular deleting a
graded submission's directory and rescanning removes its submission row while
its feedback row survives as an orphan. -/
theorem scan_orphans_feedback :
    (∀ (db : DB) (fs : FS), (scan_and_insert_submissions db fs).feedback = db.feedback) ∧
    (scan_and_insert_submissions dbScanPrune fsScanPrune).submissions = [] ∧
    (scan_and_insert_submissions dbScanPrune fsScanPrune).feedback.length = 1 := by
  refine ⟨scan_feedback_frame, by decide, ?_⟩
  rw [scan_feedback_frame]
  rfl

end Sifr
